import Mathlib

/-!
# Torsion contact requests and contact IDs: embedding and verified properties

A shallow embedding of `src/protocol/ContactRequestClient.cpp` and of
`src/core/ContactIDValidator.cpp`.

* `QByteArray` is `List UInt8`; a null `QByteArray` result is `none`.
* In the request a `QString` is a Lean `String` (well-formed Unicode text)
  and `QString::size` counts UTF-16 code units (`qsize`); in the validator,
  which indexes into its texts, a `QString` is the list of its UTF-16 code
  units (`QStr`).
* Sockets live in a heap (`Client.sockets`) and the request holds an index
  into it (`Client.socket`), as the C++ object holds a `QTcpSocket *`.
* Emitted Qt signals are appended to `Client.emitted`.
* A slot that dereferences a null `socket` returns `none`.
-/

namespace Torsion

/-! ## Bytes and strings -/

abbrev Bytes := List UInt8

/-- Big-endian encoding of a `quint16`; the argument is reduced modulo `2^16`
as the C++ cast `(quint16)` does. -/
def be16 (n : Nat) : Bytes :=
  [UInt8.ofNat (n % 65536 / 256), UInt8.ofNat (n % 65536 % 256)]

/-- Reading of a big-endian `quint16` at the head of a byte string. -/
def readBe16 : Bytes → Option Nat
  | b0 :: b1 :: _ => some (b0.toNat * 256 + b1.toNat)
  | _ => none

/-- Number of UTF-16 code units one character occupies in a `QString`. -/
def utf16Units (ch : Char) : Nat :=
  if ch.val.toNat < 65536 then 1 else 2

/-- Value of `QString::size()`: the number of UTF-16 code units. -/
def qsize (s : List Char) : Nat :=
  (s.map utf16Units).sum

/-- Value of `QString::lastIndexOf(ch)` as a character position, `none` for
the C++ result `-1`. -/
def lastIndexOf (s : List Char) (ch : Char) : Option Nat :=
  match s with
  | [] => none
  | x :: xs =>
    match lastIndexOf xs ch with
    | some i => some (i + 1)
    | none => if x = ch then some 0 else none

/-- Effect of `QString::truncate(pos)`; a negative position (here `none`)
empties the string, as `QString::resize` clamps a negative size to zero. -/
def truncate (s : List Char) (pos : Option Nat) : List Char :=
  match pos with
  | none => []
  | some i => s.take i

/-- Result of `QString::toLatin1()`: one byte per UTF-16 code unit, `?` for
every unit above `0xFF`. -/
def toLatin1 (s : List Char) : Bytes :=
  s.flatMap fun ch =>
    if ch.val.toNat < 256 then [UInt8.ofNat ch.val.toNat]
    else if ch.val.toNat < 65536 then [63]
    else [63, 63]

/-- Result of `QString::toUtf8()`. -/
def toUtf8 (s : String) : Bytes :=
  s.data.flatMap String.utf8EncodeChar

/-! ## Frame codec -/

/-- Modelled from the spec: the class `CommandDataParser` (its header and
implementation are absent from the sources). Spec section 4.B: a serializer
appending big-endian `u16` values, fixed-width byte strings, variable-width
byte strings prefixed by a big-endian `u16` length, and UTF-8 strings written
as variable-width byte strings, with a sticky error flag set on overflow. -/
structure CommandDataParser where
  data : Bytes
  error : Bool
deriving DecidableEq, Repr

namespace CommandDataParser

/-- Modelled from the spec: `operator<<(quint16)` of the absent
`CommandDataParser`, writing a `u16` in big-endian. -/
def writeU16 (p : CommandDataParser) (v : Nat) : CommandDataParser :=
  { p with data := p.data ++ be16 v }

/-- Modelled from the spec: `writeFixedData` of the absent
`CommandDataParser`, writing a fixed-width byte string as it is. -/
def writeFixedData (p : CommandDataParser) (d : Bytes) : CommandDataParser :=
  { p with data := p.data ++ d }

/-- Modelled from the spec: `writeVariableData` of the absent
`CommandDataParser`, writing a byte string prefixed by its length as a
big-endian `u16`; a string whose length does not fit the `u16` is an overflow,
which sets the sticky error flag and writes nothing. -/
def writeVariableData (p : CommandDataParser) (d : Bytes) : CommandDataParser :=
  if d.length > 65535 then { p with error := true }
  else { p with data := p.data ++ be16 d.length ++ d }

/-- Modelled from the spec: `operator<<(const QString &)` of the absent
`CommandDataParser`, writing a UTF-8 string as a variable-width byte string. -/
def writeString (p : CommandDataParser) (s : String) : CommandDataParser :=
  p.writeVariableData (toUtf8 s)

/-- Modelled from the spec: `hasError` of the absent `CommandDataParser`,
the sticky error flag. -/
def hasError (p : CommandDataParser) : Bool :=
  p.error

end CommandDataParser

/-! ## Collaborators -/

/-- The part of `CryptoKey` the request uses: `isLoaded()`,
`encodedPublicKey()` and `signData()`; `none` is a null `QByteArray`. -/
structure CryptoKey where
  isLoaded : Bool
  encodedPublicKey : Option Bytes
  signData : Bytes → Option Bytes

/-- What the request reads from its surroundings. `protocolVersion` and
`introData` are declared in headers absent from the sources and are taken as
parameters. -/
structure Env where
  /-- the constant `protocolVersion` -/
  protocolVersion : UInt8
  /-- value of `IncomingSocket::introData(ProtocolSocket::PurposeContactReq)` -/
  introData : Bytes
  /-- value of `torControl->isSocksReady()` -/
  socksReady : Bool
  /-- value of `user->conn()->host()`, the host `sendRequest` connects to -/
  host : String
  /-- value of `user->conn()->port()` -/
  port : Nat
  /-- value of `user->readSetting("localSecret").toByteArray()` -/
  localSecret : Bytes
  /-- value of `user->identity->hiddenService()` with its `cryptoKey()`; `none` is a
  null service pointer -/
  hiddenService : Option CryptoKey

/-! ## Request state -/

/-- Modelled from the spec: `enum State` of the absent header
`ContactRequestClient.h`; the enumerators are those the source uses. -/
inductive State where
  | NotConnected
  | WaitConnect
  | WaitCookie
  | WaitAck
  | WaitResponse
  | Reconnecting
deriving DecidableEq, Repr

/-- Modelled from the spec: `enum Response` of the absent header
`ContactRequestClient.h`, in the order of spec section 3
(None, Acknowledged, Accepted, Rejected, Error); `m_response >= Rejected`
compares positions in this order. -/
inductive Response where
  | NoResponse
  | Acknowledged
  | Accepted
  | Rejected
  | Error
deriving DecidableEq, Repr

/-- Position of a response in the enum. -/
def Response.toNat : Response → Nat
  | .NoResponse => 0
  | .Acknowledged => 1
  | .Accepted => 2
  | .Rejected => 3
  | .Error => 4

/-- The signals of `ContactRequestClient`. -/
inductive Signal where
  | acknowledged
  | accepted
  | rejected (code : UInt8)
  | responseChanged
deriving DecidableEq, Repr

/-- A `QTcpSocket` as the request sees it. -/
structure Socket where
  /-- bytes available for reading -/
  input : Bytes
  /-- the arguments of the `write` calls, oldest first -/
  writes : List Bytes
  /-- the socket's signals are connected to the request's slots -/
  wired : Bool
  /-- whether `close()` was called -/
  closed : Bool
  /-- whether `abort()` was called -/
  aborted : Bool
  /-- whether `deleteLater()` was called -/
  deleted : Bool
  /-- arguments of `connectToHost` -/
  target : Option (String × Nat)
deriving DecidableEq, Repr

/-- The request object together with the objects it points to. -/
structure Client where
  /-- all sockets ever created, a socket pointer being an index -/
  sockets : List Socket
  /-- the member `socket`; `none` is the null pointer -/
  socket : Option Nat
  connectAttempts : Nat
  m_response : Response
  state : State
  m_mynick : String
  m_message : String
  /-- the single-shot `connectTimer`: `some ms` while it is running -/
  connectTimer : Option Nat
  /-- sockets given to `user->conn()->addSocket(_, PurposePrimary)` -/
  primary : List Nat
  /-- signals emitted so far, oldest first -/
  emitted : List Signal
  /-- arguments of the `signData` calls so far, oldest first -/
  signedInputs : List Bytes
deriving DecidableEq, Repr

/-- The constructor `ContactRequestClient(ContactUser *u)`. -/
def Client.new : Client :=
  { sockets := [], socket := none, connectAttempts := 0, m_response := .NoResponse,
    state := .NotConnected, m_mynick := "", m_message := "", connectTimer := none,
    primary := [], emitted := [], signedInputs := [] }

/-- Update of the socket a pointer designates. -/
def Client.onSocket (c : Client) (id : Nat) (f : Socket → Socket) : Client :=
  { c with sockets := c.sockets.modify f id }

/-- Emission of a signal. -/
def Client.emit (c : Client) (s : Signal) : Client :=
  { c with emitted := c.emitted ++ [s] }

/-- Method `ContactRequestClient::setMessage`. -/
def setMessage (c : Client) (message : String) : Client :=
  { c with m_message := message }

/-- Method `ContactRequestClient::setMyNickname`. -/
def setMyNickname (c : Client) (nick : String) : Client :=
  { c with m_mynick := nick }

/-- Method `ContactRequestClient::close`. -/
def close (c : Client) : Client :=
  let c :=
    match c.socket with
    | some id =>
      { c.onSocket id (fun k => { k with wired := false, aborted := true, deleted := true })
        with socket := none }
    | none => c
  { c with state := .NotConnected }

/-- Method `ContactRequestClient::sendRequest`. -/
def sendRequest (env : Env) (c : Client) : Client :=
  let c := close c
  let c := { c with state := .WaitConnect }
  if !env.socksReady then c
  else
    { c with
      sockets := c.sockets ++
        [{ input := [], writes := [], wired := true, closed := false, aborted := false,
           deleted := false, target := some (env.host, env.port) }]
      socket := some c.sockets.length }

/-- Method `ContactRequestClient::spawnReconnect`. -/
def spawnReconnect (c : Client) : Client :=
  if c.state = .Reconnecting ∨ c.m_response ≠ .NoResponse then c
  else
    let connectAttempts := c.connectAttempts + 1
    let delay :=
      if connectAttempts ≤ 4 then 30
      else if connectAttempts ≤ 6 then 120
      else 600
    { c with connectAttempts := connectAttempts, state := .Reconnecting,
             connectTimer := some (delay * 1000) }

/-- The `timeout()` of `connectTimer`, connected to `sendRequest` in the
constructor; the timer is single-shot and stops when it fires. -/
def timerFired (env : Env) (c : Client) : Client :=
  match c.connectTimer with
  | none => c
  | some _ => sendRequest env { c with connectTimer := none }

/-- Method `ContactRequestClient::socketConnected`. -/
def socketConnected (env : Env) (c : Client) : Option Client :=
  match c.socket with
  | none => none
  | some id =>
    let c := c.onSocket id (fun k => { k with writes := k.writes ++ [env.introData] })
    some { c with state := .WaitConnect }

/-- The statement `qToBigEndian((quint16)requestData.size(), requestData.data())`:
the two bytes at offsets 0 and 1 are overwritten. -/
def setLength (requestData : Bytes) : Bytes :=
  ((requestData.set 0 (UInt8.ofNat (requestData.length % 65536 / 256))).set 1
    (UInt8.ofNat (requestData.length % 65536 % 256)))

/-- Method `ContactRequestClient::buildRequestData`. The result is `none` when
the final `socket->write` dereferences a null pointer. -/
def buildRequestData (env : Env) (c : Client) (cookie : Bytes) : Option (Bool × Client) :=
  let request : CommandDataParser := { data := [], error := false }
  /- Hostname -/
  let hostname := truncate env.host.data (lastIndexOf env.host.data '.')
  if qsize hostname ≠ 16 then some (false, c)
  else
  /- Connection secret -/
  let connSecret := env.localSecret
  if connSecret.length ≠ 16 then some (false, c)
  else
  /- Public service key -/
  match env.hiddenService with
  | none => some (false, c)
  | some serviceKey =>
  if !serviceKey.isLoaded then some (false, c)
  else
  match serviceKey.encodedPublicKey with
  | none => some (false, c)
  | some publicKeyData =>
  /- Build request -/
  let request := request.writeU16 0
  let request := request.writeFixedData (toLatin1 hostname)
  let request := request.writeFixedData cookie
  let request := request.writeFixedData connSecret
  let request := request.writeVariableData publicKeyData
  let request := (request.writeString c.m_mynick).writeString c.m_message
  if request.hasError then some (false, c)
  else
  /- Sign request, excluding the length field -/
  let c := { c with signedInputs := c.signedInputs ++ [request.data.drop 2] }
  match serviceKey.signData (request.data.drop 2) with
  | none => some (false, c)
  | some signature =>
  let request := request.writeVariableData signature
  if request.hasError then some (false, c)
  else
  /- Set length -/
  let requestData := setLength request.data
  /- Send -/
  match c.socket with
  | none => none
  | some id =>
    some (true, c.onSocket id (fun k => { k with writes := k.writes ++ [requestData] }))

/-- Method `ContactRequestClient::handleResponse`. -/
def handleResponse (c : Client) : Option (Bool × Client) :=
  match c.socket with
  | none => none
  | some id =>
  match (c.sockets[id]?).map Socket.input with
  | none => none
  | some [] => some (true, c)
  | some (response :: rest) =>
  let c := c.onSocket id (fun k => { k with input := rest })
  let c :=
    if response = 0x00 then
      ({ c with state := .WaitResponse, m_response := .Acknowledged }).emit .acknowledged
    else if response = 0x01 then
      let c := ({ c with m_response := .Accepted }).emit .accepted
      let c := c.onSocket id (fun k => { k with wired := false })
      { c with primary := c.primary ++ [id], socket := none }
    else if response = 0x40 then
      { c with m_response := .Rejected }
    else
      { c with m_response := .Error }
  let c := c.emit .responseChanged
  if c.m_response.toNat ≥ Response.Rejected.toNat then
    some (false, c.emit (.rejected response))
  else
    some (true, c)

/-- The call `socket->close()` on the request's socket. The call is recorded
on the socket; the `disconnected()` signal Qt emits for it, during the call or
on a later turn of the event loop, reaches the request as the separate step
`spawnReconnect`. -/
def closeSocket (c : Client) (id : Nat) : Client :=
  c.onSocket id (fun k => { k with closed := true })

/-- The cases `WaitCookie:` onward of the `switch` in `socketReadable`. -/
def socketReadableCookie (env : Env) (c : Client) : Option Client :=
  match c.socket with
  | none => none
  | some id =>
  match (c.sockets[id]?).map Socket.input with
  | none => none
  | some input =>
  if input.length < 16 then some c
  else
  let c := c.onSocket id (fun k => { k with input := input.drop 16 })
  match buildRequestData env c (input.take 16) with
  | none => none
  | some (false, c) => some (closeSocket c id)
  | some (true, c) => some { c with state := .WaitAck }

/-- Method `ContactRequestClient::socketReadable`. -/
def socketReadable (env : Env) (c : Client) : Option Client :=
  match c.state with
  | .WaitConnect =>
    match c.socket with
    | none => none
    | some id =>
    match (c.sockets[id]?).map Socket.input with
    | none => none
    | some [] => some c
    | some (version :: rest) =>
    let c := c.onSocket id (fun k => { k with input := rest })
    if version ≠ env.protocolVersion then
      some (closeSocket (c.emit (.rejected 0x90)) id)
    else
      /- Deliberately omitted break; cookie may arrive instantly -/
      socketReadableCookie env { c with state := .WaitCookie }
  | .WaitCookie => socketReadableCookie env c
  | .WaitAck | .WaitResponse =>
    match handleResponse c with
    | none => none
    | some (ok, c) =>
      match c.socket with
      | some id => if !ok then some (closeSocket c id) else some c
      | none => some c
  | _ => some c

/-! ## Wire layout, in the words of the specification -/

/-- The part of the host name before its last `.`, as characters. -/
def hostLabel (env : Env) : List Char :=
  truncate env.host.data (lastIndexOf env.host.data '.')

/-- A variable-width field: the content prefixed by its length as a
big-endian `u16`. -/
def block (d : Bytes) : Bytes :=
  be16 d.length ++ d

/-- The bytes between the length field and the signature block: host label,
cookie, local secret, public key block, nickname block, message block. -/
def signedPart (env : Env) (c : Client) (cookie pk : Bytes) : Bytes :=
  toLatin1 (hostLabel env) ++ cookie ++ env.localSecret ++ block pk
    ++ block (toUtf8 c.m_mynick) ++ block (toUtf8 c.m_message)

/-- The caller-side reasons for which building the request fails: host label
not of 16 characters, local secret not of 16 bytes, service key missing or not
loaded, public key not encodable, a field too long for the codec, signing
failure. -/
def buildFails (env : Env) (c : Client) (cookie : Bytes) : Prop :=
  qsize (hostLabel env) ≠ 16 ∨ env.localSecret.length ≠ 16 ∨
  match env.hiddenService with
  | none => True
  | some key =>
    key.isLoaded = false ∨
    match key.encodedPublicKey with
    | none => True
    | some pk =>
      pk.length > 65535 ∨ (toUtf8 c.m_mynick).length > 65535 ∨
      (toUtf8 c.m_message).length > 65535 ∨
      match key.signData (signedPart env c cookie pk) with
      | none => True
      | some sig => sig.length > 65535

/-- A later call on the request: `close()` or `sendRequest()`, the latter
with the surroundings it then finds. -/
inductive Teardown where
  | close
  | sendRequest (env : Env)

/-- Effect of one later call. -/
def Teardown.apply (c : Client) : Teardown → Client
  | .close => Torsion.close c
  | .sendRequest env => Torsion.sendRequest env c

/-- Effect of a sequence of later calls, in order. -/
def Teardown.run (c : Client) (ops : List Teardown) : Client :=
  ops.foldl Teardown.apply c

/-! ## Sample data -/

/-- A loaded key with a three-byte public encoding and a two-byte signature. -/
def sampleKey : CryptoKey :=
  { isLoaded := true, encodedPublicKey := some [1, 2, 3], signData := fun _ => some [4, 5] }

/-- Sample surroundings: protocol version 1, SOCKS ready. -/
def sampleEnv : Env :=
  { protocolVersion := 1, introData := [1, 128], socksReady := true,
    host := "abcdefghijklmnop.onion", port := 9878,
    localSecret := List.replicate 16 7, hiddenService := some sampleKey }

/-- The cookie `0x00 .. 0x0F`. -/
def sampleCookie : Bytes :=
  [0, 1, 2, 3, 4, 5, 6, 7, 8, 9, 10, 11, 12, 13, 14, 15]

/-- A fresh socket holding the given unread bytes. -/
def sampleSocket (input : Bytes) : Socket :=
  { input := input, writes := [], wired := true, closed := false, aborted := false,
    deleted := false, target := some ("abcdefghijklmnop.onion", 9878) }

/-- A request in the given state holding a socket with the given unread bytes. -/
def sampleClient (st : State) (input : Bytes) : Client :=
  { Client.new with sockets := [sampleSocket input], socket := some 0, state := st,
                    m_mynick := "me", m_message := "hi" }

/-- The frame built for `sampleClient` from `sampleCookie`. -/
def sampleFrame : Bytes :=
  [0, 67] ++ [97, 98, 99, 100, 101, 102, 103, 104, 105, 106, 107, 108, 109, 110, 111, 112]
    ++ sampleCookie ++ List.replicate 16 7 ++ [0, 3, 1, 2, 3] ++ [0, 2, 109, 101]
    ++ [0, 2, 104, 105] ++ [0, 2, 4, 5]

/-- The request state after the sample frame was built and written. -/
def sampleBuilt : Client :=
  { sampleClient .WaitCookie [] with
    sockets := [{ sampleSocket [] with writes := [sampleFrame] }]
    signedInputs := [(sampleFrame.drop 2).take 61] }


/-- The request state after the sample frame was written and `WaitAck`
entered. -/
def sampleSent : Client :=
  { sampleBuilt with state := .WaitAck }

/-- Sample surroundings whose host name has a label of 5 characters. -/
def sampleBadEnv : Env :=
  { sampleEnv with host := "short.onion" }

/-- The request after a readable event in `WaitCookie` whose build failed. -/
def sampleFailed : Client :=
  { sampleClient .WaitCookie [] with
    sockets := [{ sampleSocket [] with closed := true }] }

/-- The request after a readable event in `WaitConnect` that delivered the
version byte `0x02`. -/
def sampleMismatch : Client :=
  { sampleClient .WaitConnect [] with
    sockets := [{ sampleSocket [] with closed := true }]
    emitted := [.rejected 0x90] }

/-- A request that was acknowledged and waits for the peer's decision. -/
def sampleAcknowledged : Client :=
  { sampleClient .WaitResponse [] with m_response := .Acknowledged }

/-! ## Runs of the request -/

/-- An event on the request: a call of one of its methods or slots, or the
arrival of bytes on the socket it holds. -/
inductive Event where
  | sendRequest (env : Env)
  | close
  | socketConnected (env : Env)
  | receive (data : Bytes)
  | socketReadable (env : Env)
  | spawnReconnect
  | timerFired (env : Env)
  | setMessage (message : String)
  | setMyNickname (nick : String)

/-- Arrival of bytes on the socket the request holds. -/
def receive (c : Client) (data : Bytes) : Client :=
  match c.socket with
  | none => c
  | some id => c.onSocket id (fun k => { k with input := k.input ++ data })

/-- Effect of one event; `none` when a slot dereferences a null socket. -/
def Event.apply (c : Client) : Event → Option Client
  | .sendRequest env => some (Torsion.sendRequest env c)
  | .close => some (Torsion.close c)
  | .socketConnected env => Torsion.socketConnected env c
  | .receive data => some (Torsion.receive c data)
  | .socketReadable env => Torsion.socketReadable env c
  | .spawnReconnect => some (Torsion.spawnReconnect c)
  | .timerFired env => some (Torsion.timerFired env c)
  | .setMessage message => some (Torsion.setMessage c message)
  | .setMyNickname nick => some (Torsion.setMyNickname c nick)

/-- The states a newly constructed request reaches by a sequence of events. -/
inductive Reachable : Client → Prop where
  | new : Reachable Client.new
  | step (c c' : Client) (e : Event) : Reachable c → e.apply c = some c' → Reachable c'

/-- Sample surroundings in which SOCKS is not ready. -/
def sampleNotReadyEnv : Env :=
  { sampleEnv with socksReady := false }

/-- A request that lost its first connection and waits for the retry timer. -/
def sampleReconnecting : Client :=
  { Client.new with
    sockets := [sampleSocket []]
    socket := some 0, connectAttempts := 1, state := .Reconnecting,
    connectTimer := some 30000 }

/-- The request `sampleReconnecting` after an explicit `close()`. -/
def sampleClosed : Client :=
  { sampleReconnecting with
    sockets := [{ sampleSocket [] with wired := false, aborted := true, deleted := true }]
    socket := none, state := .NotConnected }

/-! ## Contact ID validator

The embedding of `src/core/ContactIDValidator.cpp`. Here a `QString` is its
sequence of UTF-16 code units, as `size`, `mid` and `chop` count code units. -/

/-- A `QString` as the list of its UTF-16 code units. -/
abbrev QStr := List Nat

/-- The UTF-16 code units of a text. -/
def utf16 (s : String) : QStr :=
  s.data.flatMap fun ch =>
    if ch.toNat < 65536 then [ch.toNat]
    else [55296 + (ch.toNat - 65536) / 1024, 56320 + (ch.toNat - 65536) % 1024]

/-- Value of `QChar::isSpace`: the ASCII white space, U+0085, U+00A0 and the
Unicode separators. -/
def isSpace (u : Nat) : Bool :=
  u == 32 || (9 ≤ u && u ≤ 13) || u == 133 || u == 160 || u == 5760 ||
  (8192 ≤ u && u ≤ 8202) || u == 8232 || u == 8233 || u == 8239 || u == 8287 || u == 12288

/-- Result of `QString::trimmed()`: white space removed from both ends. -/
def trimmed (s : QStr) : QStr :=
  ((s.dropWhile isSpace).reverse.dropWhile isSpace).reverse

/-- The lowering of the letters `A` to `Z`, every other code unit kept. It
stands for `QString::toLower()` in `idFromHostname`, where the lowered text is
only tested for the ASCII suffix `.onion`; `fixup` takes Qt's full case
mapping as a parameter instead. -/
def toLower (s : QStr) : QStr :=
  s.map fun u => if 65 ≤ u ∧ u ≤ 90 then u + 32 else u

/-- Value of `QString::endsWith`. -/
def endsWith (s suffix : QStr) : Bool :=
  s.drop (s.length - suffix.length) == suffix

/-- Result of `QString::chop(n)`: the last `n` code units removed. -/
def chop (s : QStr) (n : Nat) : QStr :=
  s.take (s.length - n)

/-- The character class `[a-z2-7]`. -/
def isBase32 (u : Nat) : Bool :=
  (97 ≤ u && u ≤ 122) || (50 ≤ u && u ≤ 55)

/-- The pattern of the static `regex`, `torsion:[a-z2-7]{16}`, matched against
the whole of `s`. -/
def regexExact (s : QStr) : Bool :=
  s.take 8 == utf16 "torsion:" && (s.drop 8).length == 16 && (s.drop 8).all isBase32

/-- Value of `regex.match(s).hasMatch()`: the pattern matches at some offset
of `s`. -/
def regexHasMatch (s : QStr) : Bool :=
  (List.range (s.length + 1)).any fun i => regexExact ((s.drop i).take 24)

/-- A partial match of the anchored pattern: `s` is not empty and ends before
the pattern is complete, every code unit so far fitting the pattern. -/
def regexPartial (s : QStr) : Bool :=
  !s.isEmpty && s.length < 24 && s.take 8 == (utf16 "torsion:").take s.length &&
    (s.drop 8).all isBase32

/-- The enum `QValidator::State`. -/
inductive QValidator.State where
  | Invalid
  | Intermediate
  | Acceptable
deriving DecidableEq, Repr

/-- Result of `QRegularExpressionValidator::validate` for the regular
expression set in the constructor: `Acceptable` on an exact match,
`Intermediate` on an empty input or a partial match, `Invalid` otherwise. -/
def regexValidate (input : QStr) : QValidator.State :=
  if regexExact input then .Acceptable
  else if input.isEmpty || regexPartial input then .Intermediate
  else .Invalid

/-- The part of `UserIdentity` the validator uses: `contacts.lookupHostname`,
a `ContactUser *` being a number and `none` the null pointer. -/
structure UserIdentity where
  lookupHostname : QStr → Option Nat

/-- The class `ContactIDValidator`; `none` is a null `m_uniqueIdentity`. -/
structure ContactIDValidator where
  m_uniqueIdentity : Option UserIdentity

/-- What a call of `validate` yields: the state returned, the text argument as
the call leaves it, and the arguments of the `contactExists` signals emitted. -/
structure Validated where
  state : QValidator.State
  text : QStr
  contactExists : List Nat
deriving DecidableEq, Repr

namespace ContactIDValidator

/-- Method `ContactIDValidator::fixup`. The parameter `qToLower` is
`QString::toLower`, whose mapping of every cased letter comes from the Unicode
tables of Qt. -/
def fixup (qToLower : QStr → QStr) (text : QStr) : QStr :=
  qToLower (trimmed text)

/-- Method `ContactIDValidator::validate`. -/
def validate (v : ContactIDValidator) (qToLower : QStr → QStr) (text : QStr) : Validated :=
  let text := fixup qToLower text
  if text.isEmpty then ⟨.Intermediate, text, []⟩
  else
    let re := regexValidate text
    if re ≠ .Acceptable then ⟨re, text, []⟩
    else
      match v.m_uniqueIdentity with
      | none => ⟨re, text, []⟩
      | some identity =>
        match identity.lookupHostname text with
        | some u => ⟨.Intermediate, text, [u]⟩
        | none => ⟨re, text, []⟩

/-- Method `ContactIDValidator::isValidID`. -/
def isValidID (text : QStr) : Bool :=
  regexHasMatch text

/-- Method `ContactIDValidator::hostnameFromID`; the empty list is the null
`QString()`. -/
def hostnameFromID (ID : QStr) : QStr :=
  if !isValidID ID then []
  else ID.drop 8 ++ utf16 ".onion"

/-- Method `ContactIDValidator::idFromHostname`; the empty list is the null
`QString()`. -/
def idFromHostname (hostname : QStr) : QStr :=
  let re := hostname
  if re.length ≠ 16 then
    if re.length = 22 ∧ endsWith (toLower re) (utf16 ".onion") = true then
      let re := chop re 6
      let re := utf16 "torsion:" ++ re
      if !isValidID re then [] else re
    else []
  else
    let re := utf16 "torsion:" ++ re
    if !isValidID re then [] else re

end ContactIDValidator

/-- What is known of `QString::toLower` without the Unicode tables: on a text
of ASCII code units it lowers the letters `A` to `Z` and keeps the rest. -/
def LowersAscii (qToLower : QStr → QStr) : Prop :=
  ∀ s : QStr, (∀ u ∈ s, u < 128) → qToLower s = toLower s

/-- A canonical ID: `torsion:` followed by exactly 16 code units of
`a-z2-7`. -/
def IsCanonicalID (id : QStr) : Prop :=
  ∃ b, id = utf16 "torsion:" ++ b ∧ b.length = 16 ∧ ∀ u ∈ b, isBase32 u = true

/-- A validator with no known identity. -/
def sampleValidator : ContactIDValidator :=
  { m_uniqueIdentity := none }

/-- A validator whose identity knows the contact 7 under one ID. -/
def sampleKnownValidator : ContactIDValidator :=
  { m_uniqueIdentity := some
      { lookupHostname := fun t => if t = utf16 "torsion:abcdefghijklmnop" then some 7 else none } }

/-- A request that lost three connections and is connected again. -/
def sampleThirdRetry : Client :=
  { sampleClient .WaitCookie [] with connectAttempts := 3 }

/-! ## Lemmas on bytes and the codec -/

theorem sockets_onSocket (c : Client) (id : Nat) (f : Socket → Socket) :
    (c.onSocket id f).sockets[id]? = (c.sockets[id]?).map f := by
  simp [Client.onSocket]

theorem toLatin1_length (s : List Char) : (toLatin1 s).length = qsize s := by
  induction s with
  | nil => rfl
  | cons x xs ih =>
    have hx : toLatin1 (x :: xs) = (if x.val.toNat < 256 then [UInt8.ofNat x.val.toNat]
        else if x.val.toNat < 65536 then [63] else [63, 63]) ++ toLatin1 xs := by
      simp [toLatin1]
    rw [hx, List.length_append, ih]
    simp only [qsize, List.map_cons, List.sum_cons, utf16Units]
    split_ifs <;> first | omega | simp

theorem lastIndexOf_none (s : List Char) (ch : Char) (h : lastIndexOf s ch = none) :
    ch ∉ s := by
  induction s with
  | nil => simp
  | cons x xs ih =>
    unfold lastIndexOf at h
    split at h
    · simp at h
    · rename_i hxs
      split_ifs at h with hx
      simp only [List.mem_cons, not_or]
      exact ⟨fun e => hx e.symm, ih hxs⟩

theorem lastIndexOf_some (s : List Char) (ch : Char) (i : Nat)
    (h : lastIndexOf s ch = some i) :
    s = s.take i ++ ch :: s.drop (i + 1) ∧ ch ∉ s.drop (i + 1) := by
  induction s generalizing i with
  | nil => simp [lastIndexOf] at h
  | cons x xs ih =>
    unfold lastIndexOf at h
    split at h
    · rename_i j hj
      obtain rfl : j + 1 = i := by simpa using h
      obtain ⟨h1, h2⟩ := ih j hj
      refine ⟨?_, by simpa using h2⟩
      simp only [List.take_succ_cons, List.cons_append, List.drop_succ_cons]
      exact congrArg _ h1
    · rename_i hxs
      split_ifs at h with hx
      obtain rfl : 0 = i := by simpa using h
      subst hx
      simp only [List.take_zero, List.nil_append, Nat.zero_add, List.drop_succ_cons,
        List.drop_zero, true_and]
      exact lastIndexOf_none xs x hxs

/-- A host label of 16 code units is the text before the last `.` of the
host name. -/
theorem hostLabel_spec (env : Env) (h : qsize (hostLabel env) = 16) :
    ∃ suffix, env.host.data = hostLabel env ++ '.' :: suffix ∧ '.' ∉ suffix := by
  unfold hostLabel at *
  cases hl : lastIndexOf env.host.data '.' with
  | none => rw [hl] at h; simp [truncate, qsize] at h
  | some i =>
    obtain ⟨h1, h2⟩ := lastIndexOf_some _ _ _ hl
    exact ⟨_, by simpa [truncate] using h1, h2⟩

theorem layout_offsets (hdr a b c t : Bytes) (hh : hdr.length = 2) (ha : a.length = 16)
    (hb : b.length = 16) (hc : c.length = 16) :
    ((hdr ++ (a ++ b ++ c ++ t)).drop 2).take 16 = a ∧
    ((hdr ++ (a ++ b ++ c ++ t)).drop 18).take 16 = b ∧
    ((hdr ++ (a ++ b ++ c ++ t)).drop 34).take 16 = c ∧
    (hdr ++ (a ++ b ++ c ++ t)).drop 50 = t := by
  simp [List.drop_append_eq_append_drop, List.take_append_eq_append_take, hh, ha, hb, hc,
    List.drop_eq_nil_of_le, List.take_of_length_le]

theorem be16_length (n : Nat) : (be16 n).length = 2 := rfl

theorem readBe16_be16 (n : Nat) (rest : Bytes) :
    readBe16 (be16 n ++ rest) = some (n % 65536) := by
  simp only [be16, readBe16, List.cons_append, List.nil_append]
  congr 1
  simp [UInt8.toNat, UInt8.ofNat, Fin.ofNat]
  omega

theorem setLength_eq (a b : UInt8) (rest : Bytes) :
    setLength (a :: b :: rest) = be16 (rest.length + 2) ++ rest := by
  simp [setLength, be16]

theorem writeVariableData_ok (p : CommandDataParser) (d : Bytes)
    (h : (p.writeVariableData d).hasError = false) :
    p.error = false ∧ d.length ≤ 65535 ∧
      p.writeVariableData d = { p with data := p.data ++ block d } := by
  unfold CommandDataParser.writeVariableData at *
  split_ifs at * with hlen
  · simp [CommandDataParser.hasError] at h
  · simp only [CommandDataParser.hasError] at h
    refine ⟨h, by omega, ?_⟩
    simp [block, List.append_assoc]

/-- What a successful `buildRequestData` did, in one equation. -/
theorem buildRequestData_true (env : Env) (c c' : Client) (cookie : Bytes)
    (h : buildRequestData env c cookie = some (true, c')) :
    ∃ key pk sig id,
      env.hiddenService = some key ∧ key.isLoaded = true ∧
      key.encodedPublicKey = some pk ∧
      key.signData (signedPart env c cookie pk) = some sig ∧
      c.socket = some id ∧
      qsize (hostLabel env) = 16 ∧ env.localSecret.length = 16 ∧
      pk.length ≤ 65535 ∧ (toUtf8 c.m_mynick).length ≤ 65535 ∧
      (toUtf8 c.m_message).length ≤ 65535 ∧ sig.length ≤ 65535 ∧
      c' = ({ c with signedInputs := c.signedInputs ++ [signedPart env c cookie pk] }).onSocket id
        (fun k => { k with writes := k.writes ++
          [be16 (2 + (signedPart env c cookie pk ++ block sig).length)
            ++ (signedPart env c cookie pk ++ block sig)] }) := by
  unfold buildRequestData at h
  simp only [] at h
  split at h
  · simp at h
  split at h
  · simp at h
  split at h
  · simp at h
  rename_i key hkey
  split at h
  · simp at h
  rename_i hloaded
  split at h
  · simp at h
  rename_i pk hpk
  split at h
  · simp at h
  split at h
  · simp at h
  rename_i sig hsig
  split at h
  · simp at h
  rename_i herr2
  split at h
  · simp at h
  rename_i id hid
  obtain ⟨e4, hsiglen, q4⟩ := writeVariableData_ok _ _ (by simpa using herr2)
  obtain ⟨e3, hmsglen, q3⟩ := writeVariableData_ok _ (toUtf8 c.m_message) e4
  obtain ⟨e2, hnicklen, q2⟩ := writeVariableData_ok _ (toUtf8 c.m_mynick) e3
  obtain ⟨-, hpklen, q1⟩ := writeVariableData_ok _ pk e2
  have hdata : ((((((((CommandDataParser.mk [] false).writeU16 0).writeFixedData
      (toLatin1 (truncate env.host.data (lastIndexOf env.host.data '.')))).writeFixedData
      cookie).writeFixedData env.localSecret).writeVariableData pk).writeString
      c.m_mynick).writeString c.m_message).data
      = 0 :: 0 :: signedPart env c cookie pk := by
    simp only [CommandDataParser.writeString] at q2 q3 ⊢
    rw [q3, q2, q1]
    simp [CommandDataParser.writeU16, CommandDataParser.writeFixedData, signedPart, hostLabel,
      be16]
  rw [q4] at h
  simp only [hdata] at h hsig
  simp only [List.drop_succ_cons, List.drop_zero] at h hsig
  rw [List.cons_append, List.cons_append, setLength_eq] at h
  refine ⟨key, pk, sig, id, hkey, by simpa using hloaded, hpk, hsig, hid,
    by simpa [hostLabel] using ‹¬ qsize _ ≠ 16›,
    by simpa using ‹¬ env.localSecret.length ≠ 16›, hpklen, hnicklen, hmsglen, hsiglen, ?_⟩
  simp only [Option.some.injEq, Prod.mk.injEq, true_and] at h
  rw [← h, Nat.add_comm]

/-! ## The request frame -/

/-- C1 (as stated, refuted): for the sample request the frame built and
written has 67 bytes and its leading big-endian `u16` is 67, not 65, the
length minus 2. -/
theorem leading_u16_not_length_minus_two :
    buildRequestData sampleEnv (sampleClient .WaitCookie []) sampleCookie
        = some (true, sampleBuilt) ∧
      sampleBuilt.sockets[0]? = some { sampleSocket [] with writes := [sampleFrame] } ∧
      readBe16 sampleFrame = some 67 ∧ sampleFrame.length - 2 = 65 ∧
      readBe16 sampleFrame ≠ some (sampleFrame.length - 2) := by
  decide

/-- C1 (amended): for every request frame that `buildRequestData` builds
successfully and writes to the socket, the big-endian `u16` in its first two
bytes is the length of the whole frame, the two bytes of the length field
included, reduced modulo `2^16` by the cast to `quint16`; so it is the frame
length itself for a frame shorter than 65536 bytes. -/
theorem leading_u16_is_frame_length (env : Env) (c c' : Client) (cookie : Bytes) (id : Nat)
    (k : Socket) (hs : c.socket = some id) (hk : c.sockets[id]? = some k)
    (h : buildRequestData env c cookie = some (true, c')) :
    ∃ frame, c'.sockets[id]? = some { k with writes := k.writes ++ [frame] } ∧
      readBe16 frame = some (frame.length % 65536) ∧
      (frame.length < 65536 → readBe16 frame = some frame.length) := by
  obtain ⟨key, pk, sig, id', -, -, -, -, hid, -, -, -, -, -, -, rfl⟩ :=
    buildRequestData_true env c c' cookie h
  obtain rfl : id' = id := by rw [hs] at hid; exact (Option.some.inj hid).symm
  refine ⟨be16 (2 + (signedPart env c cookie pk ++ block sig).length)
    ++ (signedPart env c cookie pk ++ block sig), ?_, ?_, ?_⟩
  · rw [sockets_onSocket]; simp [hk]
  · rw [readBe16_be16]; simp [be16_length]
  · intro hlt
    rw [readBe16_be16]
    simp only [List.length_append, be16_length] at hlt ⊢
    rw [Nat.mod_eq_of_lt hlt]

/-- Witness of C1 (amended) on the sample request. -/
theorem leading_u16_is_frame_length_witness :
    ∃ frame, sampleBuilt.sockets[0]? = some { sampleSocket [] with writes := [] ++ [frame] } ∧
      readBe16 frame = some (frame.length % 65536) ∧
      (frame.length < 65536 → readBe16 frame = some frame.length) :=
  leading_u16_is_frame_length sampleEnv (sampleClient .WaitCookie []) sampleBuilt sampleCookie 0
    (sampleSocket []) rfl rfl (by decide)

/-- C2: for every successfully built request frame, the one byte string
handed to the key's `signData` is the frame from offset 2 up to the start of
the signature's length field: the frame is two length bytes, then the signed
bytes, then the signature block, and the signed bytes are host label, cookie,
local secret, public key block, nickname block and message block. -/
theorem signed_bytes_are_frame_slice (env : Env) (c c' : Client) (cookie : Bytes) (id : Nat)
    (k : Socket) (hs : c.socket = some id) (hk : c.sockets[id]? = some k)
    (h : buildRequestData env c cookie = some (true, c')) :
    ∃ key pk sig signed frame,
      env.hiddenService = some key ∧ key.encodedPublicKey = some pk ∧
      c'.signedInputs = c.signedInputs ++ [signed] ∧
      key.signData signed = some sig ∧
      c'.sockets[id]? = some { k with writes := k.writes ++ [frame] } ∧
      frame = frame.take 2 ++ signed ++ (be16 sig.length ++ sig) ∧
      (frame.take 2).length = 2 ∧
      signed = (frame.drop 2).take (frame.length - 2 - (2 + sig.length)) ∧
      signed = toLatin1 (hostLabel env) ++ cookie ++ env.localSecret
        ++ (be16 pk.length ++ pk)
        ++ (be16 (toUtf8 c.m_mynick).length ++ toUtf8 c.m_mynick)
        ++ (be16 (toUtf8 c.m_message).length ++ toUtf8 c.m_message) := by
  obtain ⟨key, pk, sig, id', hkey, -, hpk, hsig, hid, -, -, -, -, -, -, rfl⟩ :=
    buildRequestData_true env c c' cookie h
  obtain rfl : id' = id := by rw [hs] at hid; exact (Option.some.inj hid).symm
  refine ⟨key, pk, sig, signedPart env c cookie pk,
    be16 (2 + (signedPart env c cookie pk ++ block sig).length)
      ++ (signedPart env c cookie pk ++ block sig), hkey, hpk, rfl, hsig, ?_, ?_, ?_, ?_, ?_⟩
  · rw [sockets_onSocket]; simp [hk]
  · rw [List.take_left' (be16_length _)]
    simp [block, List.append_assoc]
  · rw [List.take_left' (be16_length _)]; rfl
  · rw [List.drop_left' (be16_length _)]
    simp [block, be16_length]
  · simp [signedPart, block, List.append_assoc]

/-- Witness of C2 on the sample request. -/
theorem signed_bytes_are_frame_slice_witness :
    ∃ key pk sig signed frame,
      sampleEnv.hiddenService = some key ∧ key.encodedPublicKey = some pk ∧
      sampleBuilt.signedInputs = (sampleClient .WaitCookie []).signedInputs ++ [signed] ∧
      key.signData signed = some sig ∧
      sampleBuilt.sockets[0]?
        = some { sampleSocket [] with writes := (sampleSocket []).writes ++ [frame] } ∧
      frame = frame.take 2 ++ signed ++ (be16 sig.length ++ sig) ∧
      (frame.take 2).length = 2 ∧
      signed = (frame.drop 2).take (frame.length - 2 - (2 + sig.length)) ∧
      signed = toLatin1 (hostLabel sampleEnv) ++ sampleCookie ++ sampleEnv.localSecret
        ++ (be16 pk.length ++ pk)
        ++ (be16 (toUtf8 (sampleClient .WaitCookie []).m_mynick).length
              ++ toUtf8 (sampleClient .WaitCookie []).m_mynick)
        ++ (be16 (toUtf8 (sampleClient .WaitCookie []).m_message).length
              ++ toUtf8 (sampleClient .WaitCookie []).m_message) :=
  signed_bytes_are_frame_slice sampleEnv (sampleClient .WaitCookie []) sampleBuilt sampleCookie 0
    (sampleSocket []) rfl rfl (by decide)

/-! ## Lemmas on the readable handler -/

/-- A failed `buildRequestData` changed nothing but the record of signing
calls. -/
theorem buildRequestData_false (env : Env) (c c' : Client) (cookie : Bytes)
    (h : buildRequestData env c cookie = some (false, c')) :
    ∃ l, c' = { c with signedInputs := l } := by
  unfold buildRequestData at h
  simp only [] at h
  repeat' split at h
  all_goals first
    | (simp at h; done)
    | (simp only [Option.some.injEq, Prod.mk.injEq, true_and] at h; subst h; exact ⟨_, rfl⟩)

/-- A pass through the `WaitCookie` case that ends in `WaitAck` consumed 16
bytes and built the request from them. -/
theorem socketReadableCookie_ack (env : Env) (c c' : Client) (id : Nat) (k : Socket)
    (hs : c.socket = some id) (hk : c.sockets[id]? = some k) (hst : c.state ≠ .WaitAck)
    (h : socketReadableCookie env c = some c') (hack : c'.state = .WaitAck) :
    16 ≤ k.input.length ∧
    ∃ c2, buildRequestData env (c.onSocket id (fun s => { s with input := k.input.drop 16 }))
        (k.input.take 16) = some (true, c2) ∧ c' = { c2 with state := .WaitAck } := by
  unfold socketReadableCookie at h
  simp only [hs, hk, Option.map_some'] at h
  split_ifs at h with hlen
  · simp only [Option.some.injEq] at h
    subst h
    exact absurd hack hst
  · refine ⟨by omega, ?_⟩
    split at h
    · simp at h
    · rename_i c2 hb
      obtain ⟨l, rfl⟩ := buildRequestData_false _ _ _ _ hb
      simp only [Option.some.injEq] at h
      subst h
      exact absurd hack hst
    · rename_i c2 hb
      simp only [Option.some.injEq] at h
      exact ⟨c2, hb, h.symm⟩

/-- Layout of the frame written by a pass through the `WaitCookie` case that
ends in `WaitAck`. -/
theorem socketReadableCookie_layout (env : Env) (c c' : Client) (id : Nat) (k : Socket)
    (hs : c.socket = some id) (hk : c.sockets[id]? = some k) (hst : c.state ≠ .WaitAck)
    (h : socketReadableCookie env c = some c') (hack : c'.state = .WaitAck) :
    ∃ suffix key pk sig frame,
      env.host.data = hostLabel env ++ '.' :: suffix ∧ '.' ∉ suffix ∧
      16 ≤ k.input.length ∧
      env.hiddenService = some key ∧ key.encodedPublicKey = some pk ∧
      key.signData (signedPart env c (k.input.take 16) pk) = some sig ∧
      c'.sockets[id]?
        = some { k with input := k.input.drop 16, writes := k.writes ++ [frame] } ∧
      (toLatin1 (hostLabel env)).length = 16 ∧ env.localSecret.length = 16 ∧
      (frame.drop 2).take 16 = toLatin1 (hostLabel env) ∧
      (frame.drop 18).take 16 = k.input.take 16 ∧
      (frame.drop 34).take 16 = env.localSecret ∧
      frame.drop 50 = block pk ++ block (toUtf8 c.m_mynick) ++ block (toUtf8 c.m_message)
        ++ block sig ∧
      pk.length < 65536 ∧ (toUtf8 c.m_mynick).length < 65536 ∧
      (toUtf8 c.m_message).length < 65536 ∧ sig.length < 65536 := by
  obtain ⟨hlen, c2, hb, rfl⟩ := socketReadableCookie_ack env c c' id k hs hk hst h hack
  obtain ⟨key, pk, sig, id', hkey, -, hpk, hsig, hid, hq, hsec, h1, h2, h3, h4, rfl⟩ :=
    buildRequestData_true _ _ _ _ hb
  have e : id = id' := by
    have : c.socket = some id' := hid
    rw [hs] at this; exact Option.some.inj this
  subst e
  replace h2 : (toUtf8 c.m_mynick).length ≤ 65535 := h2
  replace h3 : (toUtf8 c.m_message).length ≤ 65535 := h3
  obtain ⟨suffix, hsuf, hdot⟩ := hostLabel_spec env hq
  have hlat : (toLatin1 (hostLabel env)).length = 16 := by rw [toLatin1_length, hq]
  have hck : (k.input.take 16).length = 16 := by simp; omega
  obtain ⟨o1, o2, o3, o4⟩ := layout_offsets
    (be16 (2 + (signedPart env c (k.input.take 16) pk ++ block sig).length))
    (toLatin1 (hostLabel env)) (k.input.take 16) env.localSecret
    (block pk ++ block (toUtf8 c.m_mynick) ++ block (toUtf8 c.m_message) ++ block sig)
    (be16_length _) hlat hck hsec
  have hframe : be16 (2 + (signedPart env c (k.input.take 16) pk ++ block sig).length)
      ++ (signedPart env c (k.input.take 16) pk ++ block sig)
      = be16 (2 + (signedPart env c (k.input.take 16) pk ++ block sig).length)
        ++ (toLatin1 (hostLabel env) ++ k.input.take 16 ++ env.localSecret
          ++ (block pk ++ block (toUtf8 c.m_mynick) ++ block (toUtf8 c.m_message)
            ++ block sig)) := by
    simp [signedPart, List.append_assoc]
  refine ⟨suffix, key, pk, sig,
    be16 (2 + (signedPart env c (k.input.take 16) pk ++ block sig).length)
      ++ (signedPart env c (k.input.take 16) pk ++ block sig),
    hsuf, hdot, hlen, hkey, hpk, hsig, ?_, hlat, hsec,
    ?_, ?_, ?_, ?_, by omega, by omega, by omega, by omega⟩
  · show (Client.onSocket _ id _).sockets[id]? = _
    rw [sockets_onSocket]
    show ((c.onSocket id _).sockets[id]?).map _ = _
    rw [sockets_onSocket, hk]
    rfl
  · rw [hframe]; exact o1
  · rw [hframe]; exact o2
  · rw [hframe]; exact o3
  · rw [hframe]; exact o4

/-- C3: when a readable event in `WaitCookie`, or in `WaitConnect` with the
matching version byte, builds the request (the handler ends in `WaitAck`),
the frame written holds after its 2-byte length field, with nothing in
between: at offset 2 the 16 bytes of the host name before its last `.` (so
without `.onion`), at offset 18 the 16 cookie bytes as they were read from the
socket, at offset 34 the 16-byte local secret, and from offset 50 the public
key encoding, the UTF-8 nickname, the UTF-8 message and the signature, each
prefixed by its length as a big-endian `u16`. -/
theorem request_frame_layout (env : Env) (c c' : Client) (id : Nat) (k : Socket)
    (hs : c.socket = some id) (hk : c.sockets[id]? = some k)
    (hst : c.state = .WaitCookie ∨ c.state = .WaitConnect)
    (h : socketReadable env c = some c') (hack : c'.state = .WaitAck) :
    ∃ suffix key pk sig pre cookie rest frame,
      env.host.data = hostLabel env ++ '.' :: suffix ∧ '.' ∉ suffix ∧
      (c.state = .WaitCookie ∧ pre = [] ∨
        c.state = .WaitConnect ∧ pre = [env.protocolVersion]) ∧
      k.input = pre ++ cookie ++ rest ∧ cookie.length = 16 ∧
      env.hiddenService = some key ∧ key.encodedPublicKey = some pk ∧
      key.signData (signedPart env c cookie pk) = some sig ∧
      c'.sockets[id]? = some { k with input := rest, writes := k.writes ++ [frame] } ∧
      (toLatin1 (hostLabel env)).length = 16 ∧ env.localSecret.length = 16 ∧
      (frame.drop 2).take 16 = toLatin1 (hostLabel env) ∧
      (frame.drop 18).take 16 = cookie ∧
      (frame.drop 34).take 16 = env.localSecret ∧
      frame.drop 50 = (be16 pk.length ++ pk)
        ++ (be16 (toUtf8 c.m_mynick).length ++ toUtf8 c.m_mynick)
        ++ (be16 (toUtf8 c.m_message).length ++ toUtf8 c.m_message)
        ++ (be16 sig.length ++ sig) ∧
      pk.length < 65536 ∧ (toUtf8 c.m_mynick).length < 65536 ∧
      (toUtf8 c.m_message).length < 65536 ∧ sig.length < 65536 := by
  rcases hst with hst | hst
  · have h' : socketReadableCookie env c = some c' := by
      unfold socketReadable at h; rw [hst] at h; exact h
    obtain ⟨suffix, key, pk, sig, frame, a1, a2, a3, a4, a5, a6, a7, a8, a9, a10, a11, a12,
      a13, a14⟩ := socketReadableCookie_layout env c c' id k hs hk (by rw [hst]; decide) h' hack
    exact ⟨suffix, key, pk, sig, [], k.input.take 16, k.input.drop 16, frame, a1, a2,
      Or.inl ⟨hst, rfl⟩, by simp, by simp; omega, a4, a5, a6, a7, a8, a9, a10, a11, a12, a13,
      a14⟩
  · unfold socketReadable at h
    rw [hst] at h
    simp only [hs, hk, Option.map_some'] at h
    cases hin : k.input with
    | nil =>
      rw [hin] at h
      simp only [Option.some.injEq] at h
      subst h
      rw [hst] at hack
      exact absurd hack (by decide)
    | cons version t =>
      rw [hin] at h
      simp only [] at h
      split_ifs at h with hv
      · simp only [Option.some.injEq] at h
        subst h
        have : c.state = .WaitAck := hack
        rw [hst] at this
        exact absurd this (by decide)
      · have hv' : version = env.protocolVersion := by simpa using hv
        obtain ⟨suffix, key, pk, sig, frame, a1, a2, a3, a4, a5, a6, a7, a8, a9, a10, a11,
          a12, a13, a14⟩ := socketReadableCookie_layout env _ c' id { k with input := t }
            (show Client.socket { c.onSocket id (fun s => { s with input := t }) with
              state := .WaitCookie } = some id from hs)
            (show (c.onSocket id (fun s => { s with input := t })).sockets[id]? = _ by
              rw [sockets_onSocket, hk]; rfl)
            (fun e => State.noConfusion e) h hack
        refine ⟨suffix, key, pk, sig, [env.protocolVersion], t.take 16, t.drop 16, frame, a1,
          a2, Or.inr ⟨hst, rfl⟩, by simp [hv'], by simp; exact a3, a4, a5, a6, a7, a8, a9,
          a10, a11, a12, a13, a14⟩

/-- Witness of C3: the sample request receives the version byte and the
cookie in one readable event. -/
theorem request_frame_layout_witness :
    ∃ suffix key pk sig pre cookie rest frame,
      sampleEnv.host.data = hostLabel sampleEnv ++ '.' :: suffix ∧ '.' ∉ suffix ∧
      ((sampleClient .WaitConnect (1 :: sampleCookie)).state = .WaitCookie ∧ pre = [] ∨
        (sampleClient .WaitConnect (1 :: sampleCookie)).state = .WaitConnect ∧
          pre = [sampleEnv.protocolVersion]) ∧
      (sampleSocket (1 :: sampleCookie)).input = pre ++ cookie ++ rest ∧ cookie.length = 16 ∧
      sampleEnv.hiddenService = some key ∧ key.encodedPublicKey = some pk ∧
      key.signData (signedPart sampleEnv (sampleClient .WaitConnect (1 :: sampleCookie))
        cookie pk) = some sig ∧
      sampleSent.sockets[0]? = some { sampleSocket (1 :: sampleCookie) with
        input := rest, writes := (sampleSocket (1 :: sampleCookie)).writes ++ [frame] } ∧
      (toLatin1 (hostLabel sampleEnv)).length = 16 ∧ sampleEnv.localSecret.length = 16 ∧
      (frame.drop 2).take 16 = toLatin1 (hostLabel sampleEnv) ∧
      (frame.drop 18).take 16 = cookie ∧
      (frame.drop 34).take 16 = sampleEnv.localSecret ∧
      frame.drop 50 = (be16 pk.length ++ pk)
        ++ (be16 (toUtf8 (sampleClient .WaitConnect (1 :: sampleCookie)).m_mynick).length
              ++ toUtf8 (sampleClient .WaitConnect (1 :: sampleCookie)).m_mynick)
        ++ (be16 (toUtf8 (sampleClient .WaitConnect (1 :: sampleCookie)).m_message).length
              ++ toUtf8 (sampleClient .WaitConnect (1 :: sampleCookie)).m_message)
        ++ (be16 sig.length ++ sig) ∧
      pk.length < 65536 ∧
      (toUtf8 (sampleClient .WaitConnect (1 :: sampleCookie)).m_mynick).length < 65536 ∧
      (toUtf8 (sampleClient .WaitConnect (1 :: sampleCookie)).m_message).length < 65536 ∧
      sig.length < 65536 :=
  request_frame_layout sampleEnv (sampleClient .WaitConnect (1 :: sampleCookie)) sampleSent 0
    (sampleSocket (1 :: sampleCookie)) rfl rfl (Or.inr rfl) (by decide) rfl

@[simp] theorem onSocket_socket (c : Client) (id : Nat) (f : Socket → Socket) :
    (c.onSocket id f).socket = c.socket := rfl

@[simp] theorem onSocket_state (c : Client) (id : Nat) (f : Socket → Socket) :
    (c.onSocket id f).state = c.state := rfl

@[simp] theorem onSocket_m_response (c : Client) (id : Nat) (f : Socket → Socket) :
    (c.onSocket id f).m_response = c.m_response := rfl

@[simp] theorem onSocket_emitted (c : Client) (id : Nat) (f : Socket → Socket) :
    (c.onSocket id f).emitted = c.emitted := rfl

@[simp] theorem onSocket_connectAttempts (c : Client) (id : Nat) (f : Socket → Socket) :
    (c.onSocket id f).connectAttempts = c.connectAttempts := rfl

@[simp] theorem onSocket_connectTimer (c : Client) (id : Nat) (f : Socket → Socket) :
    (c.onSocket id f).connectTimer = c.connectTimer := rfl

@[simp] theorem onSocket_primary (c : Client) (id : Nat) (f : Socket → Socket) :
    (c.onSocket id f).primary = c.primary := rfl

/-- The result of `handleResponse` on a socket holding at least one byte. -/
theorem handleResponse_byte (c : Client) (id : Nat) (k : Socket) (b : UInt8) (rest : Bytes)
    (hs : c.socket = some id) (hk : c.sockets[id]? = some k) (hin : k.input = b :: rest) :
    handleResponse c = some (
      if b = 0x00 then
        (true, { c.onSocket id (fun s => { s with input := rest }) with
          state := .WaitResponse, m_response := .Acknowledged,
          emitted := c.emitted ++ [.acknowledged, .responseChanged] })
      else if b = 0x01 then
        (true, { (c.onSocket id (fun s => { s with input := rest })).onSocket id
            (fun s => { s with wired := false }) with
          m_response := .Accepted, primary := c.primary ++ [id], socket := none,
          emitted := c.emitted ++ [.accepted, .responseChanged] })
      else
        (false, { c.onSocket id (fun s => { s with input := rest }) with
          m_response := if b = 0x40 then .Rejected else .Error,
          emitted := c.emitted ++ [.responseChanged, .rejected b] })) := by
  unfold handleResponse
  simp only [hs, hk, hin, Option.map_some']
  by_cases h0 : b = 0x00
  · simp [h0, Client.emit, Client.onSocket, Response.toNat]
  by_cases h1 : b = 0x01
  · simp [h1, Client.emit, Client.onSocket, Response.toNat]
  by_cases h40 : b = 0x40
  · simp [h40, Client.emit, Client.onSocket, Response.toNat]
  · simp [h0, h1, h40, Client.emit, Client.onSocket, Response.toNat]

/-! ## Response handling -/

/-- C4: for every response byte `b` read in state `WaitAck` or `WaitResponse`,
the response becomes Acknowledged if `b = 0x00` (state `WaitResponse`, socket
kept and not closed), Accepted if `b = 0x01`, Rejected if `b = 0x40`, and
Error for every other value; the signals emitted are `acknowledged` then
`responseChanged` for `0x00`, `accepted` then `responseChanged` for `0x01`,
and `responseChanged` then `rejected(b)` otherwise, so `responseChanged` is
emitted once and `rejected(b)` once exactly when `b` is outside
`{0x00, 0x01}`, which is also exactly when the socket is closed. -/
theorem response_byte_handling (env : Env) (c : Client) (id : Nat) (k : Socket) (b : UInt8)
    (rest : Bytes) (hs : c.socket = some id) (hk : c.sockets[id]? = some k)
    (hst : c.state = .WaitAck ∨ c.state = .WaitResponse) (hin : k.input = b :: rest) :
    ∃ c', socketReadable env c = some c' ∧
      c'.m_response = (if b = 0x00 then .Acknowledged else if b = 0x01 then .Accepted
        else if b = 0x40 then .Rejected else .Error) ∧
      c'.emitted = c.emitted ++
        (if b = 0x00 then [.acknowledged, .responseChanged]
         else if b = 0x01 then [.accepted, .responseChanged]
         else [.responseChanged, .rejected b]) ∧
      (c'.sockets[id]?).map Socket.closed
        = some (if b = 0x00 ∨ b = 0x01 then k.closed else true) ∧
      (c'.sockets[id]?).map Socket.input = some rest ∧
      (b = 0x00 → c'.state = .WaitResponse ∧ c'.socket = some id ∧
        c'.sockets[id]? = some { k with input := rest }) ∧
      (b ≠ 0x00 → c'.state = c.state) ∧
      c'.connectAttempts = c.connectAttempts ∧ c'.connectTimer = c.connectTimer := by
  have hr := handleResponse_byte c id k b rest hs hk hin
  have hsr : socketReadable env c =
      match handleResponse c with
      | none => none
      | some (ok, c) =>
        match c.socket with
        | some id => if !ok then some (closeSocket c id) else some c
        | none => some c := by
    unfold socketReadable
    rcases hst with hst | hst <;> rw [hst]
  rw [hsr, hr]
  by_cases h0 : b = 0x00
  · subst h0
    simp [hs, sockets_onSocket, hk]
  by_cases h1 : b = 0x01
  · subst h1
    simp [sockets_onSocket, hk]
  · simp [h0, h1, hs, closeSocket, sockets_onSocket, hk]

/-- Witness of C4: the byte `0x40` read in `WaitAck`. -/
theorem response_byte_handling_witness :
    ∃ c', socketReadable sampleEnv (sampleClient .WaitAck [0x40, 0x01]) = some c' ∧
      c'.m_response = (if (0x40 : UInt8) = 0x00 then .Acknowledged
        else if (0x40 : UInt8) = 0x01 then .Accepted
        else if (0x40 : UInt8) = 0x40 then .Rejected else .Error) ∧
      c'.emitted = (sampleClient .WaitAck [0x40, 0x01]).emitted ++
        (if (0x40 : UInt8) = 0x00 then [.acknowledged, .responseChanged]
         else if (0x40 : UInt8) = 0x01 then [.accepted, .responseChanged]
         else [.responseChanged, .rejected 0x40]) ∧
      (c'.sockets[0]?).map Socket.closed
        = some (if (0x40 : UInt8) = 0x00 ∨ (0x40 : UInt8) = 0x01
            then (sampleSocket [0x40, 0x01]).closed else true) ∧
      (c'.sockets[0]?).map Socket.input = some [0x01] ∧
      ((0x40 : UInt8) = 0x00 → c'.state = .WaitResponse ∧ c'.socket = some 0 ∧
        c'.sockets[0]? = some { sampleSocket [0x40, 0x01] with input := [0x01] }) ∧
      ((0x40 : UInt8) ≠ 0x00 → c'.state = (sampleClient .WaitAck [0x40, 0x01]).state) ∧
      c'.connectAttempts = (sampleClient .WaitAck [0x40, 0x01]).connectAttempts ∧
      c'.connectTimer = (sampleClient .WaitAck [0x40, 0x01]).connectTimer :=
  response_byte_handling sampleEnv (sampleClient .WaitAck [0x40, 0x01]) 0
    (sampleSocket [0x40, 0x01]) 0x40 [0x01] rfl rfl (Or.inl rfl) rfl

/-- A socket the request does not point to is left as it is by `close`. -/
theorem close_other (c : Client) (id : Nat) (hne : c.socket ≠ some id) :
    (close c).socket = none ∧ (close c).sockets[id]? = c.sockets[id]? ∧
      (close c).primary = c.primary := by
  unfold close
  cases hsock : c.socket with
  | none => simp [hsock]
  | some j =>
    have hj : j ≠ id := fun e => hne (by rw [hsock, e])
    simp [Client.onSocket, List.getElem?_modify_ne _ _ hj]

/-- A socket the request does not point to is left as it is by a later
`close()` or `sendRequest()`, and the request does not come to point to it. -/
theorem teardown_apply_other (c : Client) (id : Nat) (s : Socket) (op : Teardown)
    (hne : c.socket ≠ some id) (hget : c.sockets[id]? = some s) :
    (op.apply c).socket ≠ some id ∧ (op.apply c).sockets[id]? = some s ∧
      (op.apply c).primary = c.primary := by
  obtain ⟨h1, h2, h3⟩ := close_other c id hne
  have hlt : id < c.sockets.length := (List.getElem?_eq_some_iff.mp hget).1
  cases op with
  | close =>
    refine ⟨?_, ?_, h3⟩
    · show (close c).socket ≠ some id
      rw [h1]; simp
    · show (close c).sockets[id]? = some s
      rw [h2, hget]
  | sendRequest env =>
    show (sendRequest env c).socket ≠ some id ∧ (sendRequest env c).sockets[id]? = some s ∧
      (sendRequest env c).primary = c.primary
    have hlen : (close c).sockets.length = c.sockets.length := by
      unfold close; cases c.socket <;> simp [Client.onSocket]
    unfold sendRequest
    by_cases hr : env.socksReady = true
    · simp only [hr, Bool.not_true, Bool.false_eq_true, if_false]
      refine ⟨?_, ?_, h3⟩
      · simp only [hlen, ne_eq, Option.some.injEq]; omega
      · show ((close c).sockets ++ _)[id]? = some s
        rw [List.getElem?_append_left (by rw [hlen]; exact hlt), h2, hget]
    · have hr' : env.socksReady = false := by simpa using hr
      simp only [hr', Bool.not_false, if_true]
      exact ⟨by show (close c).socket ≠ some id; rw [h1]; simp, by
        show (close c).sockets[id]? = some s; rw [h2, hget], h3⟩

theorem teardown_run_other (ops : List Teardown) (c : Client) (id : Nat) (s : Socket)
    (hne : c.socket ≠ some id) (hget : c.sockets[id]? = some s) :
    (Teardown.run c ops).sockets[id]? = some s ∧ (Teardown.run c ops).primary = c.primary := by
  induction ops generalizing c with
  | nil => exact ⟨hget, rfl⟩
  | cons op ops ih =>
    obtain ⟨h1, h2, h3⟩ := teardown_apply_other c id s op hne hget
    obtain ⟨h4, h5⟩ := ih (op.apply c) h1 h2
    exact ⟨h4, h5.trans h3⟩

/-- C5: when the response byte `0x01` is handled, the socket is given to the
session layer as a primary connection with `close`, `abort` and `deleteLater`
not called on it (only the request's signal connections are removed), the
request's socket pointer becomes null, and every later sequence of `close()`
and `sendRequest()` calls on the request leaves that socket exactly as it was
handed over and still listed as primary. -/
theorem accepted_socket_handoff (env : Env) (c : Client) (id : Nat) (k : Socket)
    (rest : Bytes) (hs : c.socket = some id) (hk : c.sockets[id]? = some k)
    (hst : c.state = .WaitAck ∨ c.state = .WaitResponse) (hin : k.input = 0x01 :: rest) :
    ∃ c', socketReadable env c = some c' ∧
      c'.m_response = .Accepted ∧
      c'.primary = c.primary ++ [id] ∧ c'.socket = none ∧
      c'.sockets[id]? = some { k with input := rest, wired := false } ∧
      ∀ ops : List Teardown,
        (Teardown.run c' ops).sockets[id]? = some { k with input := rest, wired := false } ∧
        (Teardown.run c' ops).primary = c.primary ++ [id] := by
  have hr := handleResponse_byte c id k 0x01 rest hs hk hin
  have hsr : socketReadable env c =
      match handleResponse c with
      | none => none
      | some (ok, c) =>
        match c.socket with
        | some id => if !ok then some (closeSocket c id) else some c
        | none => some c := by
    unfold socketReadable
    rcases hst with hst | hst <;> rw [hst]
  rw [hsr, hr]
  simp only [show ((1 : UInt8) = 0) = False from by decide, if_false, if_true]
  refine ⟨_, rfl, rfl, rfl, rfl, ?_, ?_⟩
  · simp [sockets_onSocket, hk]
  · intro ops
    exact teardown_run_other ops _ id _ (by simp) (by simp [sockets_onSocket, hk])

/-- Witness of C5: the byte `0x01` read in `WaitResponse`. -/
theorem accepted_socket_handoff_witness :
    ∃ c', socketReadable sampleEnv (sampleClient .WaitResponse [0x01]) = some c' ∧
      c'.m_response = .Accepted ∧
      c'.primary = (sampleClient .WaitResponse [0x01]).primary ++ [0] ∧ c'.socket = none ∧
      c'.sockets[0]? = some { sampleSocket [0x01] with input := [], wired := false } ∧
      ∀ ops : List Teardown,
        (Teardown.run c' ops).sockets[0]?
          = some { sampleSocket [0x01] with input := [], wired := false } ∧
        (Teardown.run c' ops).primary = (sampleClient .WaitResponse [0x01]).primary ++ [0] :=
  accepted_socket_handoff sampleEnv (sampleClient .WaitResponse [0x01]) 0 (sampleSocket [0x01])
    [] rfl rfl (Or.inr rfl) rfl

/-- A `buildRequestData` that does not return false passed every check. -/
theorem buildRequestData_passed (env : Env) (c : Client) (cookie : Bytes)
    (r : Option (Bool × Client)) (hr : buildRequestData env c cookie = r)
    (h : ∀ c', r ≠ some (false, c')) :
    ∃ key pk sig,
      env.hiddenService = some key ∧ key.isLoaded = true ∧
      key.encodedPublicKey = some pk ∧
      key.signData (signedPart env c cookie pk) = some sig ∧
      qsize (hostLabel env) = 16 ∧ env.localSecret.length = 16 ∧
      pk.length ≤ 65535 ∧ (toUtf8 c.m_mynick).length ≤ 65535 ∧
      (toUtf8 c.m_message).length ≤ 65535 ∧ sig.length ≤ 65535 := by
  unfold buildRequestData at hr
  simp only [] at hr
  split at hr
  · exact absurd hr.symm (h _)
  split at hr
  · exact absurd hr.symm (h _)
  split at hr
  · exact absurd hr.symm (h _)
  rename_i key hkey
  split at hr
  · exact absurd hr.symm (h _)
  rename_i hloaded
  split at hr
  · exact absurd hr.symm (h _)
  rename_i pk hpk
  split at hr
  · exact absurd hr.symm (h _)
  rename_i herr1
  split at hr
  · exact absurd hr.symm (h _)
  rename_i sig hsig
  split at hr
  · exact absurd hr.symm (h _)
  rename_i herr2
  obtain ⟨e4, hsiglen, -⟩ := writeVariableData_ok _ _ (by simpa using herr2)
  obtain ⟨e3, hmsglen, q3⟩ := writeVariableData_ok _ (toUtf8 c.m_message) e4
  obtain ⟨e2, hnicklen, q2⟩ := writeVariableData_ok _ (toUtf8 c.m_mynick) e3
  obtain ⟨-, hpklen, q1⟩ := writeVariableData_ok _ pk e2
  have hdata : ((((((((CommandDataParser.mk [] false).writeU16 0).writeFixedData
      (toLatin1 (truncate env.host.data (lastIndexOf env.host.data '.')))).writeFixedData
      cookie).writeFixedData env.localSecret).writeVariableData pk).writeString
      c.m_mynick).writeString c.m_message).data
      = 0 :: 0 :: signedPart env c cookie pk := by
    simp only [CommandDataParser.writeString] at q2 q3 ⊢
    rw [q3, q2, q1]
    simp [CommandDataParser.writeU16, CommandDataParser.writeFixedData, signedPart, hostLabel,
      be16]
  simp only [hdata, List.drop_succ_cons, List.drop_zero] at hsig
  exact ⟨key, pk, sig, hkey, by simpa using hloaded, hpk, hsig,
    by simpa [hostLabel] using ‹¬ qsize _ ≠ 16›,
    by simpa using ‹¬ env.localSecret.length ≠ 16›, hpklen, hnicklen, hmsglen, hsiglen⟩

/-- For each caller-side reason `buildRequestData` returns false, having
changed nothing but the record of signing calls. -/
theorem buildRequestData_of_buildFails (env : Env) (c : Client) (cookie : Bytes)
    (hf : buildFails env c cookie) :
    ∃ l, buildRequestData env c cookie = some (false, { c with signedInputs := l }) := by
  by_cases hex : ∃ c', buildRequestData env c cookie = some (false, c')
  · obtain ⟨c', hc'⟩ := hex
    obtain ⟨l, rfl⟩ := buildRequestData_false env c c' cookie hc'
    exact ⟨l, hc'⟩
  · exfalso
    obtain ⟨key, pk, sig, hkey, hl, hpk, hsig, hq, hsec, h1, h2, h3, h4⟩ :=
      buildRequestData_passed env c cookie _ rfl (fun c' e => hex ⟨c', e⟩)
    unfold buildFails at hf
    rw [hkey] at hf
    simp only [hpk, hsig, hl] at hf
    rcases hf with hf | hf | hf | hf | hf | hf | hf
    · exact hf hq
    · exact hf hsec
    · exact absurd hf (by decide)
    · omega
    · omega
    · omega
    · omega

/-! ## Failures and reconnection -/

/-- C6 (the code at the failing input): with a host label of 5 characters
building fails and the handler closes the socket, but the response stays
`NoResponse` instead of becoming `Error`; when the `disconnected` event of
that close reaches `spawnReconnect`, an attempt is counted, the state becomes
`Reconnecting` and the timer is armed with 30 s, so the request is retried. -/
theorem build_failure_is_not_error :
    qsize (hostLabel sampleBadEnv) = 5 ∧
    socketReadable sampleBadEnv (sampleClient .WaitCookie sampleCookie) = some sampleFailed ∧
    sampleFailed.m_response = .NoResponse ∧ sampleFailed.m_response ≠ .Error ∧
    (spawnReconnect sampleFailed).state = .Reconnecting ∧
    (spawnReconnect sampleFailed).connectAttempts = 1 ∧
    (spawnReconnect sampleFailed).connectTimer = some 30000 := by
  decide

/-- Effect of the readable handler when building the request fails for a
caller-side reason (host label not of 16 characters, local secret not of 16
bytes, service key missing or not loaded, public key not encodable, codec
error, signing failure): the cookie is consumed, nothing is written, the
socket is closed, and neither the handler nor the slot `spawnReconnect` emits
a signal or assigns the response. -/
theorem build_failure_closes_socket (env : Env) (c : Client) (id : Nat) (k : Socket)
    (cookie rest : Bytes) (hs : c.socket = some id) (hk : c.sockets[id]? = some k)
    (hst : c.state = .WaitCookie ∧ k.input = cookie ++ rest ∨
      c.state = .WaitConnect ∧ k.input = env.protocolVersion :: (cookie ++ rest))
    (hck : cookie.length = 16) (hf : buildFails env c cookie) :
    ∃ c', socketReadable env c = some c' ∧
      c'.m_response = c.m_response ∧ c'.emitted = c.emitted ∧
      c'.socket = some id ∧
      c'.sockets[id]? = some { k with input := rest, closed := true } ∧
      c'.primary = c.primary ∧
      (spawnReconnect c').m_response = c.m_response ∧
      (spawnReconnect c').emitted = c.emitted ∧
      (spawnReconnect c').sockets = c'.sockets := by
  have key : ∀ (d : Client) (kd : Socket), d.socket = some id → d.sockets[id]? = some kd →
      kd.input = cookie ++ rest → d.m_mynick = c.m_mynick → d.m_message = c.m_message →
      ∃ c', socketReadableCookie env d = some c' ∧
        c'.m_response = d.m_response ∧ c'.emitted = d.emitted ∧
        c'.socket = some id ∧
        c'.sockets[id]? = some { kd with input := rest, closed := true } ∧
        c'.primary = d.primary := by
    intro d kd hds hdk hin hn hm
    have htake : kd.input.take 16 = cookie := by rw [hin]; exact List.take_left' hck
    have hdrop : kd.input.drop 16 = rest := by rw [hin]; exact List.drop_left' hck
    have hf' : buildFails env (d.onSocket id (fun s => { s with input := rest })) cookie := by
      have e : signedPart env (d.onSocket id (fun s => { s with input := rest })) cookie
          = signedPart env c cookie := by
        funext pk
        show toLatin1 _ ++ _ ++ _ ++ _ ++ block (toUtf8 d.m_mynick) ++ block (toUtf8 d.m_message)
          = _
        rw [hn, hm]; rfl
      unfold buildFails at hf ⊢
      rw [e]
      show _ ∨ _ ∨ match env.hiddenService with
        | none => True
        | some key => key.isLoaded = false ∨ match key.encodedPublicKey with
          | none => True
          | some pk => pk.length > 65535 ∨ (toUtf8 d.m_mynick).length > 65535 ∨
              (toUtf8 d.m_message).length > 65535 ∨ _
      rw [hn, hm]
      exact hf
    obtain ⟨l, hb⟩ := buildRequestData_of_buildFails env _ cookie hf'
    unfold socketReadableCookie
    simp only [hds, hdk, Option.map_some']
    rw [if_neg (by rw [hin, List.length_append, hck]; omega), htake, hdrop, hb]
    refine ⟨_, rfl, rfl, rfl, hds, ?_, rfl⟩
    simp [closeSocket, sockets_onSocket, hdk]
  have hsp : ∀ e : Client, (spawnReconnect e).m_response = e.m_response ∧
      (spawnReconnect e).emitted = e.emitted ∧ (spawnReconnect e).sockets = e.sockets := by
    intro e
    unfold spawnReconnect
    split_ifs <;> exact ⟨rfl, rfl, rfl⟩
  rcases hst with ⟨hst, hin⟩ | ⟨hst, hin⟩
  · obtain ⟨c', h1, h2, h3, h5, h6, h9⟩ := key c k hs hk hin rfl rfl
    refine ⟨c', ?_, h2, h3, h5, h6, h9, (hsp c').1.trans h2, (hsp c').2.1.trans h3,
      (hsp c').2.2⟩
    unfold socketReadable; rw [hst]; exact h1
  · obtain ⟨c', h1, h2, h3, h5, h6, h9⟩ :=
      key { c.onSocket id (fun s => { s with input := cookie ++ rest }) with
          state := .WaitCookie } { k with input := cookie ++ rest } hs
        (by show (c.onSocket id _).sockets[id]? = _; rw [sockets_onSocket, hk]; rfl)
        rfl rfl rfl
    refine ⟨c', ?_, h2, h3, h5, h6, h9, (hsp c').1.trans h2, (hsp c').2.1.trans h3,
      (hsp c').2.2⟩
    unfold socketReadable
    rw [hst]
    simp only [hs, hk, hin, Option.map_some', ne_eq, not_true_eq_false, if_false]
    exact h1

/-- The effect of a failed build on the sample request with a host label of 5
characters. -/
theorem build_failure_closes_socket_witness :
    ∃ c', socketReadable sampleBadEnv (sampleClient .WaitCookie sampleCookie) = some c' ∧
      c'.m_response = (sampleClient .WaitCookie sampleCookie).m_response ∧
      c'.emitted = (sampleClient .WaitCookie sampleCookie).emitted ∧
      c'.socket = some 0 ∧
      c'.sockets[0]? = some { sampleSocket sampleCookie with input := [], closed := true } ∧
      c'.primary = (sampleClient .WaitCookie sampleCookie).primary ∧
      (spawnReconnect c').m_response = (sampleClient .WaitCookie sampleCookie).m_response ∧
      (spawnReconnect c').emitted = (sampleClient .WaitCookie sampleCookie).emitted ∧
      (spawnReconnect c').sockets = c'.sockets :=
  build_failure_closes_socket sampleBadEnv (sampleClient .WaitCookie sampleCookie) 0
    (sampleSocket sampleCookie) sampleCookie [] rfl rfl (Or.inl ⟨rfl, rfl⟩) rfl
    (Or.inl (by decide))

/-- C7 (the code at the failing input): the version byte `0x02` read in
`WaitConnect` against protocol version 1 emits `rejected(0x90)` and closes the
socket, but the response stays `NoResponse`; when the `disconnected` event of
that close reaches `spawnReconnect`, an attempt is counted, the state becomes
`Reconnecting` and the timer is armed with 30 s. -/
theorem version_mismatch_then_reconnect :
    socketReadable sampleEnv (sampleClient .WaitConnect [0x02]) = some sampleMismatch ∧
    sampleMismatch.emitted = [.rejected 0x90] ∧
    (sampleMismatch.sockets[0]?).map Socket.closed = some true ∧
    sampleMismatch.m_response = .NoResponse ∧
    (spawnReconnect sampleMismatch).state = .Reconnecting ∧
    (spawnReconnect sampleMismatch).connectAttempts = 1 ∧
    (spawnReconnect sampleMismatch).connectTimer = some 30000 := by
  decide

/-- C8 (as stated, refuted): for a request in `WaitResponse` whose response is
Acknowledged, `spawnReconnect` changes nothing: `connectAttempts` stays 0, the
state stays `WaitResponse` and no timer is armed. -/
theorem acknowledged_disconnect_not_retried :
    sampleAcknowledged.state = .WaitResponse ∧
    sampleAcknowledged.m_response = .Acknowledged ∧
    spawnReconnect sampleAcknowledged = sampleAcknowledged ∧
    (spawnReconnect sampleAcknowledged).connectAttempts = 0 ∧
    (spawnReconnect sampleAcknowledged).state ≠ .Reconnecting ∧
    (spawnReconnect sampleAcknowledged).connectTimer = none := by
  decide

/-- C8 (amended): for every request in state `WaitConnect`, `WaitCookie`,
`WaitAck` or `WaitResponse` whose response is `NoResponse`, a disconnected or
error event (the slot `spawnReconnect`) increments `connectAttempts` by one,
moves the request to `Reconnecting` and arms the timer with the backoff delay,
changing nothing else; when the response is Acknowledged the event changes
nothing. -/
theorem disconnect_before_response_retries (c : Client)
    (hst : c.state = .WaitConnect ∨ c.state = .WaitCookie ∨ c.state = .WaitAck ∨
      c.state = .WaitResponse) :
    (c.m_response = .NoResponse →
      spawnReconnect c = { c with
        connectAttempts := c.connectAttempts + 1
        state := .Reconnecting
        connectTimer := some ((if c.connectAttempts + 1 ≤ 4 then 30
          else if c.connectAttempts + 1 ≤ 6 then 120 else 600) * 1000) }) ∧
    (c.m_response = .Acknowledged → spawnReconnect c = c) := by
  constructor
  · intro hr
    have hne : c.state ≠ .Reconnecting := by
      rcases hst with h | h | h | h <;> rw [h] <;> decide
    unfold spawnReconnect
    rw [if_neg (by rw [hr]; simp [hne])]
  · intro hr
    unfold spawnReconnect
    rw [if_pos (Or.inr (by rw [hr]; decide))]

/-- Witness of C8 (amended): the sample request waiting for the cookie. -/
theorem disconnect_before_response_retries_witness :
    ((sampleClient .WaitCookie []).m_response = .NoResponse →
      spawnReconnect (sampleClient .WaitCookie []) = { sampleClient .WaitCookie [] with
        connectAttempts := (sampleClient .WaitCookie []).connectAttempts + 1
        state := .Reconnecting
        connectTimer := some ((if (sampleClient .WaitCookie []).connectAttempts + 1 ≤ 4 then 30
          else if (sampleClient .WaitCookie []).connectAttempts + 1 ≤ 6 then 120
          else 600) * 1000) }) ∧
    ((sampleClient .WaitCookie []).m_response = .Acknowledged →
      spawnReconnect (sampleClient .WaitCookie []) = sampleClient .WaitCookie []) :=
  disconnect_before_response_retries (sampleClient .WaitCookie []) (Or.inr (Or.inl rfl))

/-- C9: once the response is Accepted, Rejected or Error, `spawnReconnect`
returns the request unchanged: `connectAttempts`, the state and the timer are
as before, so a disconnect or error after a terminal response schedules no
retry. -/
theorem spawnReconnect_terminal_noop (c : Client)
    (h : c.m_response = .Accepted ∨ c.m_response = .Rejected ∨ c.m_response = .Error) :
    spawnReconnect c = c ∧
      (spawnReconnect c).connectAttempts = c.connectAttempts ∧
      (spawnReconnect c).state = c.state ∧
      (spawnReconnect c).connectTimer = c.connectTimer := by
  have e : spawnReconnect c = c := by
    unfold spawnReconnect
    rw [if_pos (Or.inr (by rcases h with h | h | h <;> rw [h] <;> decide))]
  rw [e]
  exact ⟨rfl, rfl, rfl, rfl⟩

/-- Witness of C9: a rejected request whose transport then disconnects. -/
theorem spawnReconnect_terminal_noop_witness :
    spawnReconnect { sampleClient .WaitAck [] with m_response := .Rejected }
        = { sampleClient .WaitAck [] with m_response := .Rejected } ∧
      (spawnReconnect { sampleClient .WaitAck [] with m_response := .Rejected }).connectAttempts
        = ({ sampleClient .WaitAck [] with m_response := .Rejected } : Client).connectAttempts ∧
      (spawnReconnect { sampleClient .WaitAck [] with m_response := .Rejected }).state
        = ({ sampleClient .WaitAck [] with m_response := .Rejected } : Client).state ∧
      (spawnReconnect { sampleClient .WaitAck [] with m_response := .Rejected }).connectTimer
        = ({ sampleClient .WaitAck [] with m_response := .Rejected } : Client).connectTimer :=
  spawnReconnect_terminal_noop { sampleClient .WaitAck [] with m_response := .Rejected }
    (Or.inr (Or.inl rfl))

/-- C10: when `spawnReconnect` passes its guard and reaches the attempt count
`n = connectAttempts + 1`, it arms the timer with 30 000 ms if `n ≤ 4`, with
120 000 ms if `n` is 5 or 6 and with 600 000 ms if `n ≥ 7`; for the counts
1 to 8 the delays are 30, 30, 30, 30, 120, 120, 600, 600 seconds; and of two
such calls the one with the larger count arms no shorter delay. -/
theorem backoff_delays (c d : Client)
    (hc : c.state ≠ .Reconnecting ∧ c.m_response = .NoResponse)
    (hd : d.state ≠ .Reconnecting ∧ d.m_response = .NoResponse) :
    (spawnReconnect c).connectAttempts = c.connectAttempts + 1 ∧
    ((spawnReconnect c).connectAttempts ≤ 4 →
      (spawnReconnect c).connectTimer = some (30 * 1000)) ∧
    (5 ≤ (spawnReconnect c).connectAttempts → (spawnReconnect c).connectAttempts ≤ 6 →
      (spawnReconnect c).connectTimer = some (120 * 1000)) ∧
    (7 ≤ (spawnReconnect c).connectAttempts →
      (spawnReconnect c).connectTimer = some (600 * 1000)) ∧
    (List.range 8).map (fun i =>
        (spawnReconnect { Client.new with connectAttempts := i }).connectTimer)
      = [some 30000, some 30000, some 30000, some 30000, some 120000, some 120000,
          some 600000, some 600000] ∧
    (c.connectAttempts ≤ d.connectAttempts →
      ∃ x y, (spawnReconnect c).connectTimer = some x ∧
        (spawnReconnect d).connectTimer = some y ∧ x ≤ y) := by
  have hgo : ∀ e : Client, e.state ≠ .Reconnecting ∧ e.m_response = .NoResponse →
      spawnReconnect e = { e with
        connectAttempts := e.connectAttempts + 1
        state := .Reconnecting
        connectTimer := some ((if e.connectAttempts + 1 ≤ 4 then 30
          else if e.connectAttempts + 1 ≤ 6 then 120 else 600) * 1000) } := by
    intro e he
    unfold spawnReconnect
    rw [if_neg (by rw [he.2]; simp [he.1])]
  rw [hgo c hc, hgo d hd]
  refine ⟨rfl, ?_, ?_, ?_, by decide, ?_⟩
  · intro h
    simp only [] at h ⊢
    rw [if_pos h]
  · intro h5 h6
    simp only [] at h5 h6 ⊢
    rw [if_neg (by omega), if_pos h6]
  · intro h7
    simp only [] at h7 ⊢
    rw [if_neg (by omega), if_neg (by omega)]
  · intro hle
    refine ⟨_, _, rfl, rfl, ?_⟩
    split_ifs <;> omega

/-- Witness of C10: a first and a seventh attempt. -/
theorem backoff_delays_witness :
    (spawnReconnect (sampleClient .WaitCookie [])).connectTimer = some (30 * 1000) ∧
    (spawnReconnect { sampleClient .WaitCookie [] with connectAttempts := 6 }).connectTimer
      = some (600 * 1000) :=
  ⟨(backoff_delays (sampleClient .WaitCookie [])
      { sampleClient .WaitCookie [] with connectAttempts := 6 }
      ⟨by decide, rfl⟩ ⟨by decide, rfl⟩).2.1 (by decide),
   (backoff_delays { sampleClient .WaitCookie [] with connectAttempts := 6 }
      { sampleClient .WaitCookie [] with connectAttempts := 6 }
      ⟨by decide, rfl⟩ ⟨by decide, rfl⟩).2.2.2.1 (by decide)⟩

/-! ## Lemmas on `close` and `sendRequest` -/

theorem close_of_none (c : Client) (h : c.socket = none) :
    close c = { c with state := .NotConnected } := by
  cases c
  simp only at h
  subst h
  rfl

theorem close_of_some (c : Client) (id : Nat) (h : c.socket = some id) :
    close c = { c.onSocket id (fun k => { k with wired := false, aborted := true, deleted := true })
      with socket := none, state := .NotConnected } := by
  cases c
  simp only at h
  subst h
  rfl

/-- The fields `close` leaves alone, and the two it sets. -/
theorem close_fields (c : Client) :
    (close c).socket = none ∧ (close c).state = .NotConnected ∧
    (close c).sockets.length = c.sockets.length ∧
    (close c).emitted = c.emitted ∧ (close c).m_response = c.m_response ∧
    (close c).connectAttempts = c.connectAttempts ∧
    (close c).m_mynick = c.m_mynick ∧ (close c).m_message = c.m_message ∧
    (close c).connectTimer = c.connectTimer ∧ (close c).primary = c.primary := by
  cases h : c.socket with
  | none => rw [close_of_none c h]; simp [h]
  | some id => rw [close_of_some c id h]; simp [Client.onSocket]

/-! ## Closing, the timer and reachable states -/

/-- C16 (as stated, refuted): the sample request, which reached `Reconnecting`
with the timer armed for 30 s by losing its connection, still has the timer
pending after `close()`, and when that timer fires `sendRequest` runs and
opens a new socket. -/
theorem close_leaves_timer_pending :
    spawnReconnect (sendRequest sampleEnv Client.new) = sampleReconnecting ∧
    sampleReconnecting.state = .Reconnecting ∧
    sampleReconnecting.connectTimer = some 30000 ∧
    close sampleReconnecting = sampleClosed ∧
    sampleClosed.connectTimer = some 30000 ∧
    (timerFired sampleEnv sampleClosed).socket = some 1 ∧
    (timerFired sampleEnv sampleClosed).state = .WaitConnect ∧
    ((timerFired sampleEnv sampleClosed).sockets[1]?).map Socket.target
      = some (some ("abcdefghijklmnop.onion", 9878)) := by
  decide

/-- C16 (amended): `close()` leaves the reconnect timer as it is: for every
request in state `Reconnecting` with the timer armed, after `close()` the
timer is still pending with the same interval, and its timeout then runs
`sendRequest`, which opens a new socket when SOCKS is ready. -/
theorem close_keeps_timer (env : Env) (c : Client) (ms : Nat)
    (_hst : c.state = .Reconnecting) (ht : c.connectTimer = some ms) :
    (close c).connectTimer = some ms ∧
    timerFired env (close c) = sendRequest env { close c with connectTimer := none } ∧
    (env.socksReady = true →
      (timerFired env (close c)).socket = some c.sockets.length ∧
      (timerFired env (close c)).state = .WaitConnect) := by
  obtain ⟨-, -, hlen, -, -, -, -, -, htm, -⟩ := close_fields c
  have h1 : (close c).connectTimer = some ms := htm.trans ht
  have h2 : timerFired env (close c) = sendRequest env { close c with connectTimer := none } := by
    unfold timerFired; rw [h1]
  refine ⟨h1, h2, ?_⟩
  intro hr
  rw [h2]
  obtain ⟨-, -, hlen2, -⟩ := close_fields { close c with connectTimer := none }
  unfold sendRequest
  simp only [hr, Bool.not_true, Bool.false_eq_true, if_false]
  exact ⟨congrArg some (hlen2.trans hlen), trivial⟩

/-- Witness of C16 (amended) on the sample request. -/
theorem close_keeps_timer_witness :
    (close sampleReconnecting).connectTimer = some 30000 ∧
    timerFired sampleEnv (close sampleReconnecting)
      = sendRequest sampleEnv { close sampleReconnecting with connectTimer := none } ∧
    (sampleEnv.socksReady = true →
      (timerFired sampleEnv (close sampleReconnecting)).socket
        = some sampleReconnecting.sockets.length ∧
      (timerFired sampleEnv (close sampleReconnecting)).state = .WaitConnect) :=
  close_keeps_timer sampleEnv sampleReconnecting 30000 rfl rfl

/-- C17: `close()` is idempotent and silent: closing twice gives the same
request as closing once; after `close()` the socket pointer is null and the
state is `NotConnected`; and `close()` emits no signal and leaves the
response, `connectAttempts`, the nickname and the message unchanged. -/
theorem close_idempotent_silent (c : Client) :
    close (close c) = close c ∧
    (close c).socket = none ∧ (close c).state = .NotConnected ∧
    (close c).emitted = c.emitted ∧ (close c).m_response = c.m_response ∧
    (close c).connectAttempts = c.connectAttempts ∧
    (close c).m_mynick = c.m_mynick ∧ (close c).m_message = c.m_message := by
  obtain ⟨hs, hst, -, he, hr, ha, hn, hm, -, -⟩ := close_fields c
  refine ⟨?_, hs, hst, he, hr, ha, hn, hm⟩
  rw [close_of_none (close c) hs, ← hst]

/-! ## Lemmas on what the slots leave alone -/

theorem buildRequestData_fields (env : Env) (c c' : Client) (cookie : Bytes) (b : Bool)
    (h : buildRequestData env c cookie = some (b, c')) :
    c'.socket = c.socket ∧ c'.state = c.state ∧ c'.connectAttempts = c.connectAttempts := by
  cases b with
  | false =>
    obtain ⟨l, rfl⟩ := buildRequestData_false env c c' cookie h
    exact ⟨rfl, rfl, rfl⟩
  | true =>
    obtain ⟨key, pk, sig, id, -, -, -, -, -, -, -, -, -, -, -, rfl⟩ :=
      buildRequestData_true env c c' cookie h
    exact ⟨rfl, rfl, rfl⟩

theorem socketReadableCookie_fields (env : Env) (c c' : Client)
    (h : socketReadableCookie env c = some c') :
    c'.connectAttempts = c.connectAttempts ∧ c'.socket = c.socket ∧
    (c'.state = c.state ∨ c'.state = .WaitAck) ∧ c.socket ≠ none := by
  unfold socketReadableCookie at h
  cases hs : c.socket with
  | none => rw [hs] at h; simp at h
  | some id =>
    rw [hs] at h
    simp only at h
    cases hk : (c.sockets[id]?).map Socket.input with
    | none => rw [hk] at h; simp at h
    | some input =>
      rw [hk] at h
      simp only at h
      split_ifs at h with hlen
      · simp only [Option.some.injEq] at h
        subst h
        exact ⟨rfl, hs, Or.inl rfl, by simp⟩
      · split at h
        · simp at h
        · rename_i c2 hb
          obtain ⟨h1, h2, h3⟩ := buildRequestData_fields _ _ _ _ _ hb
          simp only [Option.some.injEq] at h
          subst h
          exact ⟨h3, h1.trans hs, Or.inl h2, by simp⟩
        · rename_i c2 hb
          obtain ⟨h1, h2, h3⟩ := buildRequestData_fields _ _ _ _ _ hb
          simp only [Option.some.injEq] at h
          subst h
          exact ⟨h3, h1.trans hs, Or.inr rfl, by simp⟩

theorem handleResponse_fields (c c' : Client) (b : Bool)
    (h : handleResponse c = some (b, c')) :
    c'.connectAttempts = c.connectAttempts ∧
    (c'.state = c.state ∨ c'.state = .WaitResponse) ∧
    (c'.socket = c.socket ∨ c'.socket = none) ∧ c.socket ≠ none := by
  cases hs : c.socket with
  | none => unfold handleResponse at h; rw [hs] at h; simp at h
  | some id =>
    cases hk : c.sockets[id]? with
    | none => unfold handleResponse at h; rw [hs] at h; simp [hk] at h
    | some k =>
      cases hin : k.input with
      | nil =>
        unfold handleResponse at h
        rw [hs] at h
        simp [hk, hin] at h
        obtain ⟨-, rfl⟩ := h
        exact ⟨rfl, Or.inl rfl, Or.inl hs, by simp⟩
      | cons r rest =>
        rw [handleResponse_byte c id k r rest hs hk hin] at h
        simp only [Option.some.injEq] at h
        split_ifs at h <;>
        · simp only [Prod.mk.injEq] at h
          obtain ⟨-, rfl⟩ := h
          first
            | exact ⟨rfl, Or.inr rfl, Or.inl hs, by simp⟩
            | exact ⟨rfl, Or.inl rfl, Or.inr rfl, by simp⟩
            | exact ⟨rfl, Or.inl rfl, Or.inl hs, by simp⟩

/-- What one call of `socketReadable` can change. -/
theorem socketReadable_fields (env : Env) (c c' : Client)
    (h : socketReadable env c = some c') :
    c'.connectAttempts = c.connectAttempts ∧
    (c' = c ∨ (c'.state ≠ .NotConnected ∧ c'.state ≠ .Reconnecting ∧
      (c'.state = .WaitCookie → c'.socket ≠ none))) := by
  unfold socketReadable at h
  cases hst : c.state with
  | NotConnected => rw [hst] at h; simp at h; exact ⟨by rw [h], Or.inl h.symm⟩
  | Reconnecting => rw [hst] at h; simp at h; exact ⟨by rw [h], Or.inl h.symm⟩
  | WaitCookie =>
    rw [hst] at h
    simp only at h
    obtain ⟨h1, h2, h3, h4⟩ := socketReadableCookie_fields env c c' h
    refine ⟨h1, Or.inr ⟨?_, ?_, fun _ => by rw [h2]; exact h4⟩⟩
    · rcases h3 with h3 | h3 <;> rw [h3] <;> simp [hst]
    · rcases h3 with h3 | h3 <;> rw [h3] <;> simp [hst]
  | WaitAck =>
    rw [hst] at h
    simp only at h
    split at h
    · simp at h
    · rename_i ok c2 hh
      obtain ⟨h1, h2, h3, h4⟩ := handleResponse_fields c c2 ok hh
      have hc2 : c2.state ≠ .NotConnected ∧ c2.state ≠ .Reconnecting ∧ c2.state ≠ .WaitCookie := by
        rcases h2 with h2 | h2 <;> rw [h2] <;> simp [hst]
      split at h
      · split_ifs at h <;>
        · simp only [Option.some.injEq] at h
          subst h
          exact ⟨h1, Or.inr ⟨hc2.1, hc2.2.1, fun e => absurd e hc2.2.2⟩⟩
      · simp only [Option.some.injEq] at h
        subst h
        exact ⟨h1, Or.inr ⟨hc2.1, hc2.2.1, fun e => absurd e hc2.2.2⟩⟩
  | WaitResponse =>
    rw [hst] at h
    simp only at h
    split at h
    · simp at h
    · rename_i ok c2 hh
      obtain ⟨h1, h2, h3, h4⟩ := handleResponse_fields c c2 ok hh
      have hc2 : c2.state ≠ .NotConnected ∧ c2.state ≠ .Reconnecting ∧ c2.state ≠ .WaitCookie := by
        rcases h2 with h2 | h2 <;> rw [h2] <;> simp [hst]
      split at h
      · split_ifs at h <;>
        · simp only [Option.some.injEq] at h
          subst h
          exact ⟨h1, Or.inr ⟨hc2.1, hc2.2.1, fun e => absurd e hc2.2.2⟩⟩
      · simp only [Option.some.injEq] at h
        subst h
        exact ⟨h1, Or.inr ⟨hc2.1, hc2.2.1, fun e => absurd e hc2.2.2⟩⟩
  | WaitConnect =>
    rw [hst] at h
    simp only at h
    cases hs : c.socket with
    | none => rw [hs] at h; simp at h
    | some id =>
      rw [hs] at h
      simp only at h
      split at h
      · simp at h
      · simp only [Option.some.injEq] at h
        exact ⟨by rw [h], Or.inl h.symm⟩
      · rename_i version rest hin
        split_ifs at h with hv
        · simp only [Option.some.injEq] at h
          subst h
          exact ⟨rfl, Or.inr ⟨by simp [closeSocket, Client.emit, hst],
            by simp [closeSocket, Client.emit, hst],
            fun _ => by simp [closeSocket, Client.emit, hs]⟩⟩
        · obtain ⟨h1, h2, h3, h4⟩ := socketReadableCookie_fields env _ c' h
          refine ⟨h1, Or.inr ⟨?_, ?_, fun _ => by rw [h2]; exact h4⟩⟩
          · rcases h3 with h3 | h3 <;> rw [h3] <;> simp
          · rcases h3 with h3 | h3 <;> rw [h3] <;> simp

/-! ## Invariants of the request -/

/-- C18 (as stated, refuted): a new request on which `sendRequest` is called
while SOCKS is not ready is in `WaitConnect` with a null socket, and a request
that lost its first connection is in `Reconnecting` still holding its socket;
both states are reachable, so neither direction of the equivalence holds. -/
theorem socket_state_equivalence_fails :
    Reachable (sendRequest sampleNotReadyEnv Client.new) ∧
    (sendRequest sampleNotReadyEnv Client.new).state = .WaitConnect ∧
    (sendRequest sampleNotReadyEnv Client.new).socket = none ∧
    Reachable sampleReconnecting ∧
    sampleReconnecting.state = .Reconnecting ∧
    sampleReconnecting.socket = some 0 :=
  ⟨.step _ _ (.sendRequest sampleNotReadyEnv) .new rfl, by decide, by decide,
   .step _ _ .spawnReconnect (.step _ _ (.sendRequest sampleEnv) .new rfl) (by decide),
   by decide, by decide⟩

/-- C18 (amended): in every state reachable from a newly constructed request
by `sendRequest`, `close`, `socketConnected`, `socketReadable`,
`spawnReconnect` (and the timer, incoming bytes and the setters), a non-null
socket implies that the state is one of `WaitConnect`, `WaitCookie`,
`WaitAck`, `WaitResponse` or `Reconnecting`, and the state `WaitCookie`
implies a non-null socket. -/
theorem socket_state_invariant (c : Client) (h : Reachable c) :
    (c.socket ≠ none →
      c.state = .WaitConnect ∨ c.state = .WaitCookie ∨ c.state = .WaitAck ∨
      c.state = .WaitResponse ∨ c.state = .Reconnecting) ∧
    (c.state = .WaitCookie → c.socket ≠ none) := by
  suffices hI : (c.state = .NotConnected → c.socket = none) ∧
      (c.state = .WaitCookie → c.socket ≠ none) by
    refine ⟨fun hs => ?_, hI.2⟩
    cases hst : c.state with
    | NotConnected => exact absurd (hI.1 hst) hs
    | _ => simp
  induction h with
  | new => exact ⟨fun _ => rfl, fun e => by cases e⟩
  | step c c' e _ hstep ih =>
    have hsend : ∀ env (d : Client), ((sendRequest env d).state = .NotConnected →
        (sendRequest env d).socket = none) ∧
        ((sendRequest env d).state = .WaitCookie → (sendRequest env d).socket ≠ none) := by
      intro env d
      have hst : (sendRequest env d).state = .WaitConnect := by
        unfold sendRequest; split_ifs <;> rfl
      rw [hst]
      exact ⟨fun e => (by cases e), fun e => (by cases e)⟩
    cases e with
    | sendRequest env =>
      obtain rfl : sendRequest env c = c' := Option.some.inj hstep
      exact hsend env c
    | close =>
      obtain rfl : close c = c' := Option.some.inj hstep
      obtain ⟨h1, h2, -⟩ := close_fields c
      exact ⟨fun _ => h1, fun e => by rw [h2] at e; cases e⟩
    | socketConnected env =>
      have hstep' : socketConnected env c = some c' := hstep
      unfold socketConnected at hstep'
      cases hs : c.socket with
      | none => rw [hs] at hstep'; simp at hstep'
      | some id =>
        rw [hs] at hstep'
        simp only [Option.some.injEq] at hstep'
        subst hstep'
        exact ⟨fun e => (by cases e), fun e => (by cases e)⟩
    | receive data =>
      obtain rfl : receive c data = c' := Option.some.inj hstep
      unfold receive
      cases hs : c.socket with
      | none => simpa [hs] using ih
      | some id => simpa [hs] using ih
    | socketReadable env =>
      obtain ⟨-, h2⟩ := socketReadable_fields env c c' hstep
      rcases h2 with rfl | ⟨h2, -, h4⟩
      · exact ih
      · exact ⟨fun e => absurd e h2, h4⟩
    | spawnReconnect =>
      obtain rfl : spawnReconnect c = c' := Option.some.inj hstep
      unfold spawnReconnect
      split_ifs
      · exact ih
      · exact ⟨fun e => (by cases e), fun e => (by cases e)⟩
    | timerFired env =>
      obtain rfl : timerFired env c = c' := Option.some.inj hstep
      unfold timerFired
      split
      · exact ih
      · exact hsend env _
    | setMessage message =>
      obtain rfl : setMessage c message = c' := Option.some.inj hstep
      exact ih
    | setMyNickname nick =>
      obtain rfl : setMyNickname c nick = c' := Option.some.inj hstep
      exact ih

/-- Witness of C18 (amended): the request waiting for its retry timer. -/
theorem socket_state_invariant_witness :
    (sampleReconnecting.socket ≠ none →
      sampleReconnecting.state = .WaitConnect ∨ sampleReconnecting.state = .WaitCookie ∨
      sampleReconnecting.state = .WaitAck ∨ sampleReconnecting.state = .WaitResponse ∨
      sampleReconnecting.state = .Reconnecting) ∧
    (sampleReconnecting.state = .WaitCookie → sampleReconnecting.socket ≠ none) :=
  socket_state_invariant sampleReconnecting
    (.step _ _ .spawnReconnect (.step _ _ (.sendRequest sampleEnv) .new rfl) (by decide))

/-- C19: `connectAttempts` starts at 0, and every event on the request
(`sendRequest`, `close`, `socketConnected`, `socketReadable` with the
`handleResponse` and `buildRequestData` it calls, `spawnReconnect`, the timer,
incoming bytes, the setters) leaves it unchanged, except that
`spawnReconnect` may raise it by exactly one; so it never decreases and is
never reset, in particular not by `socketConnected`. -/
theorem connectAttempts_never_decreases (e : Event) (c c' : Client)
    (h : e.apply c = some c') :
    Client.new.connectAttempts = 0 ∧
    (c'.connectAttempts = c.connectAttempts ∨
      (e = .spawnReconnect ∧ c'.connectAttempts = c.connectAttempts + 1)) ∧
    c.connectAttempts ≤ c'.connectAttempts ∧
    (∀ env d, socketConnected env c = some d → d.connectAttempts = c.connectAttempts) ∧
    (∀ b d, handleResponse c = some (b, d) → d.connectAttempts = c.connectAttempts) ∧
    (∀ env cookie b d, buildRequestData env c cookie = some (b, d) →
      d.connectAttempts = c.connectAttempts) := by
  have hconn : ∀ env d, socketConnected env c = some d →
      d.connectAttempts = c.connectAttempts := by
    intro env d hd
    unfold socketConnected at hd
    cases hs : c.socket with
    | none => rw [hs] at hd; simp at hd
    | some id =>
      rw [hs] at hd
      simp only [Option.some.injEq] at hd
      subst hd
      rfl
  have hsend : ∀ env (d : Client), (sendRequest env d).connectAttempts = d.connectAttempts := by
    intro env d
    have := (close_fields d).2.2.2.2.2.1
    unfold sendRequest
    split_ifs <;> exact this
  have hmain : c'.connectAttempts = c.connectAttempts ∨
      (e = .spawnReconnect ∧ c'.connectAttempts = c.connectAttempts + 1) := by
    cases e with
    | sendRequest env =>
      obtain rfl : sendRequest env c = c' := Option.some.inj h
      exact Or.inl (hsend env c)
    | close =>
      obtain rfl : close c = c' := Option.some.inj h
      exact Or.inl (close_fields c).2.2.2.2.2.1
    | socketConnected env => exact Or.inl (hconn env c' h)
    | receive data =>
      obtain rfl : receive c data = c' := Option.some.inj h
      unfold receive
      cases c.socket <;> exact Or.inl rfl
    | socketReadable env => exact Or.inl (socketReadable_fields env c c' h).1
    | spawnReconnect =>
      obtain rfl : spawnReconnect c = c' := Option.some.inj h
      unfold spawnReconnect
      split_ifs
      · exact Or.inl rfl
      · exact Or.inr ⟨rfl, rfl⟩
    | timerFired env =>
      obtain rfl : timerFired env c = c' := Option.some.inj h
      unfold timerFired
      split
      · exact Or.inl rfl
      · exact Or.inl (hsend env _)
    | setMessage message =>
      obtain rfl : setMessage c message = c' := Option.some.inj h
      exact Or.inl rfl
    | setMyNickname nick =>
      obtain rfl : setMyNickname c nick = c' := Option.some.inj h
      exact Or.inl rfl
  refine ⟨rfl, hmain, ?_, hconn, ?_, ?_⟩
  · rcases hmain with h1 | ⟨-, h1⟩ <;> omega
  · intro b d hd
    exact (handleResponse_fields c d b hd).1
  · intro env cookie b d hd
    exact (buildRequestData_fields env c d cookie b hd).2.2

/-- Witness of C19: the connection of a retry is established after one lost
connection. -/
theorem connectAttempts_never_decreases_witness :
    Client.new.connectAttempts = 0 ∧
    ((sampleMismatch).connectAttempts = (sampleClient .WaitConnect [0x02]).connectAttempts ∨
      (Event.socketReadable sampleEnv = .spawnReconnect ∧
        sampleMismatch.connectAttempts
          = (sampleClient .WaitConnect [0x02]).connectAttempts + 1)) ∧
    (sampleClient .WaitConnect [0x02]).connectAttempts ≤ sampleMismatch.connectAttempts ∧
    (∀ env d, socketConnected env (sampleClient .WaitConnect [0x02]) = some d →
      d.connectAttempts = (sampleClient .WaitConnect [0x02]).connectAttempts) ∧
    (∀ b d, handleResponse (sampleClient .WaitConnect [0x02]) = some (b, d) →
      d.connectAttempts = (sampleClient .WaitConnect [0x02]).connectAttempts) ∧
    (∀ env cookie b d,
      buildRequestData env (sampleClient .WaitConnect [0x02]) cookie = some (b, d) →
      d.connectAttempts = (sampleClient .WaitConnect [0x02]).connectAttempts) :=
  connectAttempts_never_decreases (.socketReadable sampleEnv)
    (sampleClient .WaitConnect [0x02]) sampleMismatch (by decide)

/-- C20 (as stated, refuted): `sendRequest` on a new request while SOCKS is
not ready opens no socket but moves the state from `NotConnected` to
`WaitConnect`. -/
theorem send_without_socks_changes_state :
    sampleNotReadyEnv.socksReady = false ∧
    Client.new.state = .NotConnected ∧
    (sendRequest sampleNotReadyEnv Client.new).sockets = [] ∧
    (sendRequest sampleNotReadyEnv Client.new).socket = none ∧
    (sendRequest sampleNotReadyEnv Client.new).state = .WaitConnect ∧
    (sendRequest sampleNotReadyEnv Client.new).state ≠ .NotConnected := by
  decide

/-- C20 (amended): when `sendRequest` is called on an idle request (state
`NotConnected`, null socket) while SOCKS is not ready, no socket is opened and
nothing changes except the state, which becomes `WaitConnect`. -/
theorem send_without_socks (env : Env) (c : Client) (hready : env.socksReady = false)
    (_hst : c.state = .NotConnected) (hs : c.socket = none) :
    sendRequest env c = { c with state := .WaitConnect } ∧
    (sendRequest env c).sockets = c.sockets ∧ (sendRequest env c).socket = none ∧
    (sendRequest env c).state = .WaitConnect := by
  have h : sendRequest env c = { c with state := .WaitConnect } := by
    unfold sendRequest
    rw [close_of_none c hs]
    simp [hready]
  rw [h]
  exact ⟨rfl, rfl, hs, rfl⟩

/-- Witness of C20 (amended): a new request, SOCKS not ready. -/
theorem send_without_socks_witness :
    sendRequest sampleNotReadyEnv Client.new = { Client.new with state := .WaitConnect } ∧
    (sendRequest sampleNotReadyEnv Client.new).sockets = Client.new.sockets ∧
    (sendRequest sampleNotReadyEnv Client.new).socket = none ∧
    (sendRequest sampleNotReadyEnv Client.new).state = .WaitConnect :=
  send_without_socks sampleNotReadyEnv Client.new rfl rfl rfl

/-! ## Lemmas on the ID pattern -/

theorem utf16_torsion : utf16 "torsion:" = [116, 111, 114, 115, 105, 111, 110, 58] := by
  decide

theorem utf16_onion : utf16 ".onion" = [46, 111, 110, 105, 111, 110] := by
  decide

theorem regexExact_length (s : QStr) (h : regexExact s = true) : s.length = 24 := by
  simp only [regexExact, Bool.and_eq_true, beq_iff_eq, utf16_torsion] at h
  obtain ⟨⟨h1, h2⟩, -⟩ := h
  have h8 : (s.take 8).length = 8 := by rw [h1]; rfl
  simp only [List.length_take, List.length_drop] at h8 h2
  omega

theorem regexExact_iff (s : QStr) : regexExact s = true ↔ IsCanonicalID s := by
  constructor
  · intro h
    have hlen := regexExact_length s h
    simp only [regexExact, Bool.and_eq_true, beq_iff_eq, List.all_eq_true] at h
    obtain ⟨⟨h1, h2⟩, h3⟩ := h
    exact ⟨s.drop 8, by rw [← h1, List.take_append_drop], h2, h3⟩
  · rintro ⟨b, rfl, hb, hall⟩
    have hl : (utf16 "torsion:").length = 8 := by rw [utf16_torsion]; rfl
    simp only [regexExact, Bool.and_eq_true, beq_iff_eq, List.all_eq_true]
    rw [List.take_left' hl, List.drop_left' hl]
    exact ⟨⟨rfl, hb⟩, hall⟩

/-- On a text of 24 code units the unanchored match is the exact match. -/
theorem isValidID_of_length (s : QStr) (h : s.length = 24) :
    ContactIDValidator.isValidID s = regexExact s := by
  unfold ContactIDValidator.isValidID regexHasMatch
  cases hex : regexExact s with
  | true =>
    rw [List.any_eq_true]
    refine ⟨0, by simp, ?_⟩
    rw [List.drop_zero, List.take_of_length_le (by omega)]
    exact hex
  | false =>
    rw [List.any_eq_false]
    intro i _ hi
    have hl := regexExact_length _ hi
    simp only [List.length_take, List.length_drop] at hl
    have hi0 : i = 0 := by omega
    subst hi0
    rw [List.drop_zero, List.take_of_length_le (by omega)] at hi
    rw [hex] at hi
    exact absurd hi (by decide)

theorem isValidID_canonical (s : QStr) (h : IsCanonicalID s) :
    ContactIDValidator.isValidID s = true := by
  have he := (regexExact_iff s).mpr h
  rw [isValidID_of_length s (regexExact_length s he), he]

theorem toLower_append (a b : QStr) : toLower (a ++ b) = toLower a ++ toLower b := by
  simp [toLower]

theorem toLower_length (a : QStr) : (toLower a).length = a.length := by
  simp [toLower]

/-- The result of `idFromHostname` on a host name of 16 code units. -/
theorem idFromHostname_short (b : QStr) (hb : b.length = 16) :
    ContactIDValidator.idFromHostname b
      = if regexExact (utf16 "torsion:" ++ b) then utf16 "torsion:" ++ b else [] := by
  have hl : (utf16 "torsion:" ++ b).length = 24 := by
    rw [List.length_append, hb, utf16_torsion]; rfl
  unfold ContactIDValidator.idFromHostname
  simp only [hb, ne_eq, not_true_eq_false, if_false, isValidID_of_length _ hl]
  cases regexExact (utf16 "torsion:" ++ b) <;> simp

/-- The result of `idFromHostname` on a host name of 22 code units. -/
theorem idFromHostname_long (h : QStr) (hh : h.length = 22) :
    ContactIDValidator.idFromHostname h
      = if endsWith (toLower h) (utf16 ".onion") = true ∧
            regexExact (utf16 "torsion:" ++ h.take 16) = true
          then utf16 "torsion:" ++ h.take 16 else [] := by
  have hl : (utf16 "torsion:" ++ h.take 16).length = 24 := by
    rw [List.length_append, List.length_take, hh, utf16_torsion]; rfl
  unfold ContactIDValidator.idFromHostname
  simp only [hh, chop, isValidID_of_length _ hl]
  by_cases he : endsWith (toLower h) (utf16 ".onion") = true
  · cases hr : regexExact (utf16 "torsion:" ++ h.take 16) <;> simp [he, hr]
  · simp [he]

/-! ## Conversions between IDs and host names -/

/-- C11: for every valid ID, that is `torsion:` followed by exactly 16
code units of `a-z2-7`, `idFromHostname (hostnameFromID id)` is `id`. -/
theorem id_hostname_roundtrip (id : QStr) (h : IsCanonicalID id) :
    ContactIDValidator.idFromHostname (ContactIDValidator.hostnameFromID id) = id := by
  have hv := isValidID_canonical id h
  obtain ⟨b, rfl, hb, hall⟩ := h
  have hl : (utf16 "torsion:").length = 8 := by rw [utf16_torsion]; rfl
  have hhost : ContactIDValidator.hostnameFromID (utf16 "torsion:" ++ b) = b ++ utf16 ".onion" := by
    unfold ContactIDValidator.hostnameFromID
    rw [hv, List.drop_left' hl]
    rfl
  have hlen : (b ++ utf16 ".onion").length = 22 := by
    rw [List.length_append, hb, utf16_onion]; rfl
  have hends : endsWith (toLower (b ++ utf16 ".onion")) (utf16 ".onion") = true := by
    unfold endsWith
    rw [toLower_length, hlen, toLower_append, utf16_onion]
    rw [show ([46, 111, 110, 105, 111, 110] : QStr).length = 6 from rfl,
      List.drop_left' (by rw [toLower_length, hb])]
    decide
  rw [hhost, idFromHostname_long _ hlen, List.take_left' hb, hends,
    (regexExact_iff _).mpr ⟨b, rfl, hb, hall⟩]
  simp

/-- Witness of C11 on the ID `torsion:abcdefghijklmnop`. -/
theorem id_hostname_roundtrip_witness :
    ContactIDValidator.idFromHostname
        (ContactIDValidator.hostnameFromID (utf16 "torsion:abcdefghijklmnop"))
      = utf16 "torsion:abcdefghijklmnop" :=
  id_hostname_roundtrip (utf16 "torsion:abcdefghijklmnop")
    ⟨utf16 "abcdefghijklmnop", by decide, by decide, by decide⟩

/-- C12 (the code at the failing inputs): `hostnameFromID` returns the 16
code units and `.onion` for a valid ID, but for a valid ID followed by `q` it
returns `abcdefghijklmnopq.onion`, and for a valid ID preceded by `x` it
returns `:abcdefghijklmnop.onion`, instead of the empty string. -/
theorem hostnameFromID_accepts_padded_id :
    ContactIDValidator.hostnameFromID (utf16 "torsion:abcdefghijklmnop")
      = utf16 "abcdefghijklmnop.onion" ∧
    ContactIDValidator.isValidID (utf16 "torsion:abcdefghijklmnopq") = true ∧
    ContactIDValidator.hostnameFromID (utf16 "torsion:abcdefghijklmnopq")
      = utf16 "abcdefghijklmnopq.onion" ∧
    ContactIDValidator.isValidID (utf16 "xtorsion:abcdefghijklmnop") = true ∧
    ContactIDValidator.hostnameFromID (utf16 "xtorsion:abcdefghijklmnop")
      = utf16 ":abcdefghijklmnop.onion" ∧
    regexValidate (utf16 "torsion:abcdefghijklmnopq") = .Invalid ∧
    regexValidate (utf16 "xtorsion:abcdefghijklmnop") = .Invalid := by
  decide

/-- C13 (as stated, refuted): the input `abcdefghijklmnop.ONION` has 22 code
units and does not end in `.onion`, yet `idFromHostname` returns
`torsion:abcdefghijklmnop` for it, not the empty string. -/
theorem idFromHostname_accepts_uppercase_onion :
    (utf16 "abcdefghijklmnop.ONION").length = 22 ∧
    endsWith (utf16 "abcdefghijklmnop.ONION") (utf16 ".onion") = false ∧
    ContactIDValidator.idFromHostname (utf16 "abcdefghijklmnop.ONION")
      = utf16 "torsion:abcdefghijklmnop" ∧
    ContactIDValidator.idFromHostname (utf16 "abcdefghijklmnop.ONION") ≠ [] := by
  decide

/-- C13 (amended): for every `b` of 16 code units over `a-z2-7`,
`idFromHostname b` and `idFromHostname (b ++ ".onion")` are `torsion:` followed
by `b`; and `idFromHostname h` is empty for every `h` whose length is neither
16 nor 22, or whose length is 22 without ending in `.onion` when its letters
are lowered (the suffix is compared without regard to case), or whose length
is 16 or 22 and whose first 16 code units contain one outside `a-z2-7`. -/
theorem idFromHostname_spec (b h : QStr) (hb : b.length = 16)
    (hall : ∀ u ∈ b, isBase32 u = true) :
    ContactIDValidator.idFromHostname b = utf16 "torsion:" ++ b ∧
    ContactIDValidator.idFromHostname (b ++ utf16 ".onion") = utf16 "torsion:" ++ b ∧
    (h.length ≠ 16 → h.length ≠ 22 → ContactIDValidator.idFromHostname h = []) ∧
    (h.length = 22 → endsWith (toLower h) (utf16 ".onion") = false →
      ContactIDValidator.idFromHostname h = []) ∧
    (h.length = 16 ∨ h.length = 22 → (∃ u ∈ h.take 16, isBase32 u = false) →
      ContactIDValidator.idFromHostname h = []) := by
  have hex : regexExact (utf16 "torsion:" ++ b) = true :=
    (regexExact_iff _).mpr ⟨b, rfl, hb, hall⟩
  have hlen : (b ++ utf16 ".onion").length = 22 := by
    rw [List.length_append, hb, utf16_onion]; rfl
  have hends : endsWith (toLower (b ++ utf16 ".onion")) (utf16 ".onion") = true := by
    unfold endsWith
    rw [toLower_length, hlen, toLower_append, utf16_onion]
    rw [show ([46, 111, 110, 105, 111, 110] : QStr).length = 6 from rfl,
      List.drop_left' (by rw [toLower_length, hb])]
    decide
  have hbad : ∀ t : QStr, (∃ u ∈ t, isBase32 u = false) →
      regexExact (utf16 "torsion:" ++ t) = false := by
    intro t ⟨u, hu, hu32⟩
    cases hr : regexExact (utf16 "torsion:" ++ t) with
    | false => rfl
    | true =>
      obtain ⟨b', hb', -, hall'⟩ := (regexExact_iff _).mp hr
      have : t = b' := List.append_cancel_left hb'
      subst this
      rw [hall' u hu] at hu32
      exact absurd hu32 (by decide)
  refine ⟨?_, ?_, ?_, ?_, ?_⟩
  · rw [idFromHostname_short b hb, hex]; simp
  · rw [idFromHostname_long _ hlen, List.take_left' hb, hends, hex]; simp
  · intro h16 h22
    unfold ContactIDValidator.idFromHostname
    simp [h16, h22]
  · intro h22 he
    rw [idFromHostname_long h h22, he]
    simp
  · intro hl hu
    rcases hl with hl | hl
    · rw [idFromHostname_short h hl]
      rw [List.take_of_length_le (by omega)] at hu
      rw [hbad h hu]
      simp
    · rw [idFromHostname_long h hl, hbad _ hu]
      simp

/-- Witness of C13 (amended): `abcdefghijklmnop`, and the host name
`abcdefghijklmno1.onion` whose base32 part contains `1`. -/
theorem idFromHostname_spec_witness :
    ContactIDValidator.idFromHostname (utf16 "abcdefghijklmnop")
      = utf16 "torsion:" ++ utf16 "abcdefghijklmnop" ∧
    ContactIDValidator.idFromHostname (utf16 "abcdefghijklmnop" ++ utf16 ".onion")
      = utf16 "torsion:" ++ utf16 "abcdefghijklmnop" ∧
    ContactIDValidator.idFromHostname (utf16 "abcdefghijklmno1.onion") = [] :=
  ⟨(idFromHostname_spec (utf16 "abcdefghijklmnop") (utf16 "abcdefghijklmno1.onion")
      (by decide) (by decide)).1,
   (idFromHostname_spec (utf16 "abcdefghijklmnop") (utf16 "abcdefghijklmno1.onion")
      (by decide) (by decide)).2.1,
   (idFromHostname_spec (utf16 "abcdefghijklmnop") (utf16 "abcdefghijklmno1.onion")
      (by decide) (by decide)).2.2.2.2 (Or.inr (by decide)) ⟨49, by decide, by decide⟩⟩

/-! ## Validation -/

theorem regexPartial_iff (t : QStr) :
    regexPartial t = true ↔
      t ≠ [] ∧ ∃ id, IsCanonicalID id ∧ t <+: id ∧ t ≠ id := by
  have hl : (utf16 "torsion:").length = 8 := by rw [utf16_torsion]; rfl
  constructor
  · intro h
    simp only [regexPartial, Bool.and_eq_true, Bool.not_eq_true', List.isEmpty_eq_false,
      decide_eq_true_eq, beq_iff_eq, List.all_eq_true] at h
    obtain ⟨⟨⟨hne, hlt⟩, htake⟩, hall⟩ := h
    refine ⟨hne, utf16 "torsion:" ++ (t.drop 8 ++ List.replicate (16 - (t.drop 8).length) 97),
      ⟨_, rfl, ?_, ?_⟩, ?_, ?_⟩
    · simp only [List.length_append, List.length_drop, List.length_replicate]; omega
    · intro u hu
      rcases List.mem_append.mp hu with hu | hu
      · exact hall u hu
      · rw [(List.mem_replicate.mp hu).2]; decide
    · have ht : t = (utf16 "torsion:").take t.length ++ t.drop 8 := by
        conv_lhs => rw [← List.take_append_drop 8 t, htake]
      by_cases h8 : 8 ≤ t.length
      · rw [List.take_of_length_le (by omega)] at ht
        exact ⟨List.replicate (16 - (t.drop 8).length) 97, by
          rw [← List.append_assoc, ← ht]⟩
      · have hd : t.drop 8 = [] := List.drop_eq_nil_of_le (by omega)
        rw [hd, List.append_nil] at ht
        have hp : t <+: utf16 "torsion:" := List.prefix_iff_eq_take.mpr ht
        exact hp.trans (List.prefix_append _ _)
    · intro he
      have := congrArg List.length he
      simp only [List.length_append, List.length_drop, List.length_replicate, hl] at this
      omega
  · rintro ⟨hne, id, ⟨b, rfl, hb, hall⟩, ⟨r, hr⟩, hneq⟩
    simp only [regexPartial, Bool.and_eq_true, Bool.not_eq_true', List.isEmpty_eq_false,
      decide_eq_true_eq, beq_iff_eq, List.all_eq_true]
    have hrne : r ≠ [] := by
      intro e; rw [e, List.append_nil] at hr; exact hneq hr
    have hrlen : 0 < r.length := List.length_pos.mpr hrne
    have hlen := congrArg List.length hr
    simp only [List.length_append, hl, hb] at hlen
    rcases List.append_eq_append_iff.mp hr with ⟨a', h1, h2⟩ | ⟨c', h1, h2⟩
    · have hle : t.length ≤ 8 := by
        have := congrArg List.length h1
        simp only [List.length_append, hl] at this
        omega
      refine ⟨⟨⟨hne, by omega⟩, ?_⟩, ?_⟩
      · rw [List.take_of_length_le hle, h1, List.take_left' rfl]
      · rw [List.drop_eq_nil_of_le hle]
        intro u hu
        cases hu
    · subst h1
      refine ⟨⟨⟨hne, by omega⟩, ?_⟩, ?_⟩
      · rw [List.take_left' hl, List.take_of_length_le (by simp)]
      · rw [List.drop_left' hl]
        intro u hu
        exact hall u (by rw [h2]; exact List.mem_append_left _ hu)

theorem regexValidate_acceptable (t : QStr) :
    regexValidate t = .Acceptable ↔ regexExact t = true := by
  unfold regexValidate
  split_ifs <;> simp_all

theorem regexValidate_intermediate (t : QStr) :
    regexValidate t = .Intermediate ↔ t = [] ∨ regexPartial t = true := by
  unfold regexValidate
  by_cases he : regexExact t = true
  · have hlen := regexExact_length t he
    have hp : regexPartial t = false := by
      simp [regexPartial, hlen]
    have hne : t ≠ [] := by
      intro e; rw [e] at hlen; cases hlen
    simp [he, hp, hne]
  · by_cases hp : (t.isEmpty || regexPartial t) = true
    · simp only [he, hp, if_true, if_false, true_iff]
      simpa [List.isEmpty_iff] using hp
    · simp only [he, hp, if_false, false_iff]
      simpa [List.isEmpty_iff] using hp

/-- The result of `validate` for a validator with no known identity. -/
theorem validate_no_identity (v : ContactIDValidator) (qToLower : QStr → QStr) (text : QStr)
    (hv : v.m_uniqueIdentity = none) :
    v.validate qToLower text
      = ⟨regexValidate (ContactIDValidator.fixup qToLower text),
          ContactIDValidator.fixup qToLower text, []⟩ := by
  unfold ContactIDValidator.validate
  simp only [hv]
  split_ifs with h1 h2
  · have : ContactIDValidator.fixup qToLower text = [] := List.isEmpty_iff.mp h1
    rw [this]
    rfl
  · rfl
  · rfl

/-- The normalised form of a text of ASCII code units. -/
theorem fixup_ascii (qToLower : QStr → QStr) (hlow : LowersAscii qToLower) (text : QStr)
    (h : ∀ u ∈ trimmed text, u < 128) :
    ContactIDValidator.fixup qToLower text = toLower (trimmed text) :=
  hlow (trimmed text) h

/-- C14: for a validator with no known identity and every text, with `t` the
text trimmed and lowered by `QString::toLower` (`fixup`): `validate` leaves
the text argument replaced by `t` and emits nothing; it returns `Acceptable`
exactly when `t` is `torsion:` followed by 16 code units of `a-z2-7`,
`Intermediate` exactly when `t` is empty or a proper prefix of such an ID, and
`Invalid` exactly otherwise. In particular the empty text is `Intermediate`,
`torsion:abcdefghijklmnop` and `torsion:ABCDEFGHIJKLMNOP` are `Acceptable`,
and `torsion:1` is `Invalid`. The case mapping of Qt is a parameter, of which
only its effect on ASCII text is used, and only for the four examples. -/
theorem validate_classification (v : ContactIDValidator) (qToLower : QStr → QStr)
    (text : QStr) (hv : v.m_uniqueIdentity = none) (hlow : LowersAscii qToLower) :
    ContactIDValidator.fixup qToLower text = qToLower (trimmed text) ∧
    (v.validate qToLower text).text = ContactIDValidator.fixup qToLower text ∧
    (v.validate qToLower text).contactExists = [] ∧
    ((v.validate qToLower text).state = .Acceptable ↔
      IsCanonicalID (ContactIDValidator.fixup qToLower text)) ∧
    ((v.validate qToLower text).state = .Intermediate ↔
      ContactIDValidator.fixup qToLower text = [] ∨
      ∃ id, IsCanonicalID id ∧ ContactIDValidator.fixup qToLower text <+: id ∧
        ContactIDValidator.fixup qToLower text ≠ id) ∧
    ((v.validate qToLower text).state = .Invalid ↔
      ¬ IsCanonicalID (ContactIDValidator.fixup qToLower text) ∧
      ¬ (ContactIDValidator.fixup qToLower text = [] ∨
        ∃ id, IsCanonicalID id ∧ ContactIDValidator.fixup qToLower text <+: id ∧
          ContactIDValidator.fixup qToLower text ≠ id)) ∧
    (v.validate qToLower (utf16 "")).state = .Intermediate ∧
    (v.validate qToLower (utf16 "torsion:abcdefghijklmnop")).state = .Acceptable ∧
    (v.validate qToLower (utf16 "torsion:ABCDEFGHIJKLMNOP")).state = .Acceptable ∧
    (v.validate qToLower (utf16 "torsion:1")).state = .Invalid := by
  have hacc : regexValidate (ContactIDValidator.fixup qToLower text) = .Acceptable ↔
      IsCanonicalID (ContactIDValidator.fixup qToLower text) :=
    (regexValidate_acceptable _).trans (regexExact_iff _)
  have hint : regexValidate (ContactIDValidator.fixup qToLower text) = .Intermediate ↔
      ContactIDValidator.fixup qToLower text = [] ∨
      ∃ id, IsCanonicalID id ∧ ContactIDValidator.fixup qToLower text <+: id ∧
        ContactIDValidator.fixup qToLower text ≠ id := by
    rw [regexValidate_intermediate, regexPartial_iff]
    constructor
    · rintro (h | ⟨-, h⟩)
      · exact Or.inl h
      · exact Or.inr h
    · rintro (h | h)
      · exact Or.inl h
      · by_cases he : ContactIDValidator.fixup qToLower text = []
        · exact Or.inl he
        · exact Or.inr ⟨he, h⟩
  have e1 := fixup_ascii qToLower hlow (utf16 "") (by decide)
  have e2 := fixup_ascii qToLower hlow (utf16 "torsion:abcdefghijklmnop") (by decide)
  have e3 := fixup_ascii qToLower hlow (utf16 "torsion:ABCDEFGHIJKLMNOP") (by decide)
  have e4 := fixup_ascii qToLower hlow (utf16 "torsion:1") (by decide)
  simp only [validate_no_identity v qToLower _ hv]
  refine ⟨rfl, trivial, trivial, hacc, hint, ?_, ?_, ?_, ?_, ?_⟩
  · rw [← hacc, ← hint]
    cases regexValidate (ContactIDValidator.fixup qToLower text) <;> simp
  · rw [e1]; decide
  · rw [e2]; decide
  · rw [e3]; decide
  · rw [e4]; decide

/-- Witness of C14: the text ` Torsion:ABCDEFGHIJKLMNOP ` with surrounding
blanks, lowered on its ASCII letters. -/
theorem validate_classification_witness :
    (sampleValidator.validate toLower (utf16 " Torsion:ABCDEFGHIJKLMNOP ")).text
      = utf16 "torsion:abcdefghijklmnop" ∧
    (sampleValidator.validate toLower (utf16 " Torsion:ABCDEFGHIJKLMNOP ")).state
      = .Acceptable :=
  ⟨(validate_classification sampleValidator toLower (utf16 " Torsion:ABCDEFGHIJKLMNOP ") rfl
      (fun _ _ => rfl)).2.1.trans (by decide),
   (validate_classification sampleValidator toLower (utf16 " Torsion:ABCDEFGHIJKLMNOP ") rfl
      (fun _ _ => rfl)).2.2.2.1.mpr
      ⟨utf16 "abcdefghijklmnop", by decide, by decide, by decide⟩⟩

/-- C15: for a validator with a known identity, when the normalised text (the
text trimmed and lowered by `QString::toLower`, the case mapping being a
parameter) is a full valid ID that the identity's contact lookup resolves to a
contact `u`, `validate` returns `Intermediate` and emits `contactExists(u)`
exactly once; when the normalised text is not a full valid ID (empty, a
prefix, invalid) or the lookup finds nothing, and for every validator with no
identity, nothing is emitted and the result is the classification by the
regular expression. -/
theorem contact_exists_notification (v : ContactIDValidator) (identity : UserIdentity)
    (qToLower : QStr → QStr) (text : QStr) (hv : v.m_uniqueIdentity = some identity) :
    (∀ u, IsCanonicalID (ContactIDValidator.fixup qToLower text) →
      identity.lookupHostname (ContactIDValidator.fixup qToLower text) = some u →
      v.validate qToLower text
        = ⟨.Intermediate, ContactIDValidator.fixup qToLower text, [u]⟩) ∧
    (¬ IsCanonicalID (ContactIDValidator.fixup qToLower text) ∨
        identity.lookupHostname (ContactIDValidator.fixup qToLower text) = none →
      v.validate qToLower text
        = ⟨regexValidate (ContactIDValidator.fixup qToLower text),
            ContactIDValidator.fixup qToLower text, []⟩) ∧
    (∀ w : ContactIDValidator, w.m_uniqueIdentity = none →
      w.validate qToLower text
        = ⟨regexValidate (ContactIDValidator.fixup qToLower text),
            ContactIDValidator.fixup qToLower text, []⟩) := by
  have hacc : regexValidate (ContactIDValidator.fixup qToLower text) = .Acceptable ↔
      IsCanonicalID (ContactIDValidator.fixup qToLower text) :=
    (regexValidate_acceptable _).trans (regexExact_iff _)
  have hne : ∀ t : QStr, regexValidate t = .Acceptable → t.isEmpty = false := by
    intro t ht
    have := regexExact_length t ((regexValidate_acceptable t).mp ht)
    cases t with
    | nil => cases this
    | cons _ _ => rfl
  refine ⟨?_, ?_, fun w hw => validate_no_identity w qToLower text hw⟩
  · intro u hc hu
    have hre := hacc.mpr hc
    unfold ContactIDValidator.validate
    simp [hv, hu, hre, hne _ hre]
  · intro h
    unfold ContactIDValidator.validate
    by_cases he : (ContactIDValidator.fixup qToLower text).isEmpty = true
    · have : ContactIDValidator.fixup qToLower text = [] := List.isEmpty_iff.mp he
      simp only [this, List.isEmpty_nil, if_true]
      rfl
    · by_cases hre : regexValidate (ContactIDValidator.fixup qToLower text) = .Acceptable
      · have hl : identity.lookupHostname (ContactIDValidator.fixup qToLower text) = none := by
          rcases h with h | h
          · exact absurd (hacc.mp hre) h
          · exact h
        simp [he, hre, hv, hl]
      · simp [he, hre]

/-- Witness of C15: the sample identity knows `torsion:abcdefghijklmnop` as
contact 7; the text is given in capitals and lowered on its ASCII letters. -/
theorem contact_exists_notification_witness :
    sampleKnownValidator.validate toLower (utf16 "TORSION:ABCDEFGHIJKLMNOP")
      = ⟨.Intermediate, utf16 "torsion:abcdefghijklmnop", [7]⟩ :=
  ((contact_exists_notification sampleKnownValidator
      { lookupHostname := fun t =>
          if t = utf16 "torsion:abcdefghijklmnop" then some 7 else none }
      toLower (utf16 "TORSION:ABCDEFGHIJKLMNOP") rfl).1 7
    ⟨utf16 "abcdefghijklmnop", by decide, by decide, by decide⟩ (by decide)).trans (by decide)

/-! ## Lemmas on a build that passes every check -/

/-- When none of the caller-side reasons holds and the socket pointer is not
null, `buildRequestData` returns true. -/
theorem buildRequestData_of_not_buildFails (env : Env) (c : Client) (cookie : Bytes)
    (id : Nat) (hs : c.socket = some id) (h : ¬ buildFails env c cookie) :
    ∃ c', buildRequestData env c cookie = some (true, c') := by
  unfold buildFails at h
  have hq : qsize (hostLabel env) = 16 := by
    by_contra hx; exact h (Or.inl hx)
  have hsec : env.localSecret.length = 16 := by
    by_contra hx; exact h (Or.inr (Or.inl hx))
  have hm := fun hx => h (Or.inr (Or.inr hx))
  cases hkey : env.hiddenService with
  | none => rw [hkey] at hm; exact absurd trivial hm
  | some key =>
    rw [hkey] at hm
    simp only at hm
    have hl : key.isLoaded = true := by
      cases hx : key.isLoaded with
      | true => rfl
      | false => exact absurd (Or.inl hx) hm
    have hm2 := fun hx => hm (Or.inr hx)
    cases hpk : key.encodedPublicKey with
    | none => rw [hpk] at hm2; exact absurd trivial hm2
    | some pk =>
      rw [hpk] at hm2
      simp only at hm2
      have h1 : ¬ pk.length > 65535 := fun hx => hm2 (Or.inl hx)
      have h2 : ¬ (toUtf8 c.m_mynick).length > 65535 := fun hx => hm2 (Or.inr (Or.inl hx))
      have h3 : ¬ (toUtf8 c.m_message).length > 65535 :=
        fun hx => hm2 (Or.inr (Or.inr (Or.inl hx)))
      have hm3 := fun hx => hm2 (Or.inr (Or.inr (Or.inr hx)))
      cases hsig : key.signData (signedPart env c cookie pk) with
      | none => rw [hsig] at hm3; exact absurd trivial hm3
      | some sig =>
        rw [hsig] at hm3
        simp only at hm3
        have h4 : ¬ sig.length > 65535 := hm3
        have hdata : ((((((((CommandDataParser.mk [] false).writeU16 0).writeFixedData
            (toLatin1 (truncate env.host.data (lastIndexOf env.host.data '.')))).writeFixedData
            cookie).writeFixedData env.localSecret).writeVariableData pk).writeString
            c.m_mynick).writeString c.m_message)
            = ⟨0 :: 0 :: signedPart env c cookie pk, false⟩ := by
          simp [CommandDataParser.writeString, CommandDataParser.writeVariableData,
            CommandDataParser.writeU16, CommandDataParser.writeFixedData, signedPart, hostLabel,
            block, be16, h1, h2, h3]
        have hw : (CommandDataParser.mk (0 :: 0 :: signedPart env c cookie pk)
            false).writeVariableData sig
            = ⟨0 :: 0 :: signedPart env c cookie pk ++ block sig, false⟩ := by
          simp [CommandDataParser.writeVariableData, h4, block]
        unfold hostLabel at hq
        unfold buildRequestData
        simp only []
        rw [if_neg (by simp [hq]), if_neg (by simp [hsec])]
        simp only [hkey, hl, hpk, hdata, hw, hs, List.drop_succ_cons, List.drop_zero, hsig,
          CommandDataParser.hasError, Bool.not_true, Bool.false_eq_true, if_false]
        exact ⟨_, rfl⟩

theorem buildFails_congr (env : Env) (c d : Client) (cookie : Bytes)
    (hn : d.m_mynick = c.m_mynick) (hm : d.m_message = c.m_message) :
    buildFails env d cookie ↔ buildFails env c cookie := by
  simp only [buildFails, signedPart, hn, hm]

/-- With the sample surroundings no caller-side reason makes the build fail
when the nickname and the message fit their length fields. -/
theorem sampleEnv_not_buildFails (c : Client) (cookie : Bytes)
    (hn : (toUtf8 c.m_mynick).length ≤ 65535) (hm : (toUtf8 c.m_message).length ≤ 65535) :
    ¬ buildFails sampleEnv c cookie := by
  intro h
  unfold buildFails at h
  rcases h with h | h | h
  · exact h (by decide)
  · exact h (by decide)
  · have e1 : sampleEnv.hiddenService = some sampleKey := rfl
    have e2 : sampleKey.encodedPublicKey = some [1, 2, 3] := rfl
    rw [e1] at h
    simp only [e2] at h
    rcases h with h | h | h | h | h
    · exact absurd h (by decide)
    · exact absurd h (by decide)
    · omega
    · omega
    · have e3 : sampleKey.signData (signedPart sampleEnv c cookie [1, 2, 3]) = some [4, 5] :=
        rfl
      rw [e3] at h
      exact absurd h (by decide)

/-- A pass through the `WaitCookie` case with 16 bytes available and no
caller-side reason to fail writes the frame once and enters `WaitAck`. -/
theorem socketReadableCookie_success (env : Env) (d : Client) (id : Nat) (kd : Socket)
    (cookie rest : Bytes) (hds : d.socket = some id) (hdk : d.sockets[id]? = some kd)
    (hin : kd.input = cookie ++ rest) (hck : cookie.length = 16)
    (hok : ¬ buildFails env d cookie) :
    ∃ c' key pk sig,
      socketReadableCookie env d = some c' ∧ c'.state = .WaitAck ∧ c'.socket = some id ∧
      c'.emitted = d.emitted ∧
      env.hiddenService = some key ∧ key.encodedPublicKey = some pk ∧
      key.signData (signedPart env d cookie pk) = some sig ∧
      c'.sockets[id]? = some { kd with input := rest, writes := kd.writes ++
        [be16 (2 + (signedPart env d cookie pk ++ block sig).length)
          ++ (signedPart env d cookie pk ++ block sig)] } := by
  have htake : kd.input.take 16 = cookie := by rw [hin]; exact List.take_left' hck
  have hdrop : kd.input.drop 16 = rest := by rw [hin]; exact List.drop_left' hck
  have hok' : ¬ buildFails env (d.onSocket id (fun s => { s with input := rest })) cookie :=
    fun hx => hok ((buildFails_congr env d _ cookie rfl rfl).mp hx)
  obtain ⟨c2, hb⟩ := buildRequestData_of_not_buildFails env
    (d.onSocket id (fun s => { s with input := rest })) cookie id hds hok'
  obtain ⟨key, pk, sig, id', hkey, -, hpk, hsig, hid, -, -, -, -, -, -, hc2⟩ :=
    buildRequestData_true _ _ _ _ hb
  have e : id = id' := by
    have : d.socket = some id' := hid
    rw [hds] at this; exact Option.some.inj this
  subst e
  refine ⟨{ c2 with state := .WaitAck }, key, pk, sig, ?_, rfl, ?_, ?_, hkey, hpk, hsig, ?_⟩
  · unfold socketReadableCookie
    simp only [hds, hdk, Option.map_some']
    rw [if_neg (by rw [hin, List.length_append, hck]; omega), htake, hdrop, hb]
  · rw [hc2]; exact hds
  · rw [hc2]; rfl
  · rw [hc2]
    show (Client.onSocket _ id _).sockets[id]? = _
    rw [sockets_onSocket]
    show ((d.onSocket id _).sockets[id]?).map _ = _
    rw [sockets_onSocket, hdk]
    rfl

/-! ## One readable event, one reconnect, one write -/

/-- C21: when a readable event in `WaitConnect` delivers the matching version
byte together with at least 16 further bytes and no caller-side reason makes
the build fail, that one `socketReadable` call consumes the version byte and
exactly the 16 cookie bytes, writes the request frame in one write and ends in
`WaitAck`; when fewer than 16 bytes follow the version byte it consumes the
version byte only, writes nothing and ends in `WaitCookie`. -/
theorem fused_cookie_arrival (env : Env) (c : Client) (id : Nat) (k : Socket)
    (hs : c.socket = some id) (hk : c.sockets[id]? = some k)
    (hst : c.state = .WaitConnect) :
    (∀ cookie rest, k.input = env.protocolVersion :: (cookie ++ rest) → cookie.length = 16 →
      ¬ buildFails env c cookie →
      ∃ c' key pk sig,
        socketReadable env c = some c' ∧ c'.state = .WaitAck ∧ c'.socket = some id ∧
        env.hiddenService = some key ∧ key.encodedPublicKey = some pk ∧
        key.signData (signedPart env c cookie pk) = some sig ∧
        c'.sockets[id]? = some { k with input := rest, writes := k.writes ++
          [be16 (2 + (signedPart env c cookie pk ++ block sig).length)
            ++ (signedPart env c cookie pk ++ block sig)] }) ∧
    (∀ rest, k.input = env.protocolVersion :: rest → rest.length < 16 →
      ∃ c', socketReadable env c = some c' ∧ c'.state = .WaitCookie ∧ c'.socket = some id ∧
        c'.sockets[id]? = some { k with input := rest }) := by
  constructor
  · intro cookie rest hin hck hok
    obtain ⟨c', key, pk, sig, h1, h2, h3, -, h5, h6, h7, h8⟩ :=
      socketReadableCookie_success env
        { c.onSocket id (fun s => { s with input := cookie ++ rest }) with state := .WaitCookie }
        id { k with input := cookie ++ rest } cookie rest hs
        (by show (c.onSocket id _).sockets[id]? = _; rw [sockets_onSocket, hk]; rfl)
        rfl hck (fun hx => hok ((buildFails_congr env c _ cookie rfl rfl).mp hx))
    refine ⟨c', key, pk, sig, ?_, h2, h3, h5, h6, h7, h8⟩
    unfold socketReadable
    rw [hst]
    simp only [hs, hk, hin, Option.map_some', ne_eq, not_true_eq_false, if_false]
    exact h1
  · intro rest hin hlt
    refine ⟨{ c.onSocket id (fun s => { s with input := rest }) with state := .WaitCookie },
      ?_, rfl, hs, ?_⟩
    · unfold socketReadable
      rw [hst]
      simp only [hs, hk, hin, Option.map_some', ne_eq, not_true_eq_false, if_false]
      unfold socketReadableCookie
      simp only [onSocket_socket, hs, sockets_onSocket, hk, Option.map_some', hlt, if_true]
    · show (c.onSocket id _).sockets[id]? = _
      rw [sockets_onSocket, hk]
      rfl

/-- Witness of C21: the sample request receives the version byte with the 16
cookie bytes and one byte more, and receives the version byte with 2 bytes. -/
theorem fused_cookie_arrival_witness :
    (∃ c' key pk sig,
      socketReadable sampleEnv (sampleClient .WaitConnect (1 :: (sampleCookie ++ [0])))
        = some c' ∧ c'.state = .WaitAck ∧ c'.socket = some 0 ∧
      sampleEnv.hiddenService = some key ∧ key.encodedPublicKey = some pk ∧
      key.signData (signedPart sampleEnv
        (sampleClient .WaitConnect (1 :: (sampleCookie ++ [0]))) sampleCookie pk) = some sig ∧
      c'.sockets[0]? = some { sampleSocket (1 :: (sampleCookie ++ [0])) with
        input := [0], writes := (sampleSocket (1 :: (sampleCookie ++ [0]))).writes ++
          [be16 (2 + (signedPart sampleEnv (sampleClient .WaitConnect
              (1 :: (sampleCookie ++ [0]))) sampleCookie pk ++ block sig).length)
            ++ (signedPart sampleEnv (sampleClient .WaitConnect
              (1 :: (sampleCookie ++ [0]))) sampleCookie pk ++ block sig)] }) ∧
    (∃ c', socketReadable sampleEnv (sampleClient .WaitConnect [1, 8, 9]) = some c' ∧
      c'.state = .WaitCookie ∧ c'.socket = some 0 ∧
      c'.sockets[0]? = some { sampleSocket [1, 8, 9] with input := [8, 9] }) :=
  ⟨(fused_cookie_arrival sampleEnv (sampleClient .WaitConnect (1 :: (sampleCookie ++ [0]))) 0
      (sampleSocket (1 :: (sampleCookie ++ [0]))) rfl rfl rfl).1 sampleCookie [0] rfl rfl
      (sampleEnv_not_buildFails _ _ (by decide) (by decide)),
   (fused_cookie_arrival sampleEnv (sampleClient .WaitConnect [1, 8, 9]) 0
      (sampleSocket [1, 8, 9]) rfl rfl rfl).2 [8, 9] rfl (by decide)⟩

/-- C22: `spawnReconnect` does nothing while the state is `Reconnecting`, so
calling it twice is the same as calling it once: when one connection failure
delivers an error and a disconnected event to a request that passes the guard,
`connectAttempts` rises by exactly one and the timer holds the delay of the
first call, computed from `connectAttempts + 1`. -/
theorem spawnReconnect_once (c : Client) (hst : c.state ≠ .Reconnecting)
    (hr : c.m_response = .NoResponse) :
    (∀ d : Client, d.state = .Reconnecting → spawnReconnect d = d) ∧
    (∀ d : Client, spawnReconnect (spawnReconnect d) = spawnReconnect d) ∧
    (spawnReconnect c).state = .Reconnecting ∧
    (spawnReconnect (spawnReconnect c)).connectAttempts = c.connectAttempts + 1 ∧
    (spawnReconnect (spawnReconnect c)).connectTimer
      = some ((if c.connectAttempts + 1 ≤ 4 then 30
          else if c.connectAttempts + 1 ≤ 6 then 120 else 600) * 1000) := by
  have hnoop : ∀ d : Client, d.state = .Reconnecting → spawnReconnect d = d := by
    intro d hd
    unfold spawnReconnect
    rw [if_pos (Or.inl hd)]
  have hidem : ∀ d : Client, spawnReconnect (spawnReconnect d) = spawnReconnect d := by
    intro d
    by_cases hg : d.state = .Reconnecting ∨ d.m_response ≠ .NoResponse
    · have : spawnReconnect d = d := by unfold spawnReconnect; rw [if_pos hg]
      rw [this, this]
    · apply hnoop
      unfold spawnReconnect
      rw [if_neg hg]
  have hfirst : spawnReconnect c = { c with
      connectAttempts := c.connectAttempts + 1
      state := .Reconnecting
      connectTimer := some ((if c.connectAttempts + 1 ≤ 4 then 30
        else if c.connectAttempts + 1 ≤ 6 then 120 else 600) * 1000) } := by
    unfold spawnReconnect
    rw [if_neg (by rw [hr]; simp [hst])]
  refine ⟨hnoop, hidem, ?_, ?_, ?_⟩
  · rw [hfirst]
  · rw [hidem, hfirst]
  · rw [hidem, hfirst]

/-- Witness of C22: a fourth lost connection reported twice counts once and
keeps the 30 s delay. -/
theorem spawnReconnect_once_witness :
    (spawnReconnect (spawnReconnect sampleThirdRetry)).connectAttempts = 3 + 1 ∧
    (spawnReconnect (spawnReconnect sampleThirdRetry)).connectTimer = some 30000 :=
  ⟨(spawnReconnect_once sampleThirdRetry (by decide) rfl).2.2.2.1,
   (spawnReconnect_once sampleThirdRetry (by decide) rfl).2.2.2.2⟩

theorem hostnameFromID_of_exact (b : QStr) (hex : regexExact (utf16 "torsion:" ++ b) = true) :
    ContactIDValidator.hostnameFromID (utf16 "torsion:" ++ b) = b ++ utf16 ".onion" := by
  have hl : (utf16 "torsion:").length = 8 := by rw [utf16_torsion]; rfl
  have hv := isValidID_canonical _ ((regexExact_iff _).mp hex)
  unfold ContactIDValidator.hostnameFromID
  rw [hv, List.drop_left' hl]
  rfl

/-- C24 (as stated, refuted): for the host name `abcdefghijklmnop` of 16
characters `idFromHostname` is not empty, and `hostnameFromID` of its result
is `abcdefghijklmnop.onion`, not the host name itself. -/
theorem hostname_roundtrip_appends_onion :
    (utf16 "abcdefghijklmnop").length = 16 ∧
    ContactIDValidator.idFromHostname (utf16 "abcdefghijklmnop") ≠ [] ∧
    ContactIDValidator.hostnameFromID
        (ContactIDValidator.idFromHostname (utf16 "abcdefghijklmnop"))
      = utf16 "abcdefghijklmnop.onion" ∧
    ContactIDValidator.hostnameFromID
        (ContactIDValidator.idFromHostname (utf16 "abcdefghijklmnop"))
      ≠ utf16 "abcdefghijklmnop" := by
  decide

/-- C24 (amended): every non-empty result of `idFromHostname` is a canonical
ID in full: it has exactly 24 code units, starts with `torsion:` and its
remaining 16 code units, the first 16 of the host name, are all in `a-z2-7`,
although `isValidID` matches unanchored; consequently, whenever
`idFromHostname h` is not empty, `hostnameFromID (idFromHostname h)` is `h`
followed by `.onion` when `h` has 16 code units, and `h` with its last 6 code
units replaced by `.onion` when `h` has 22. -/
theorem idFromHostname_result_canonical (h : QStr)
    (hne : ContactIDValidator.idFromHostname h ≠ []) :
    IsCanonicalID (ContactIDValidator.idFromHostname h) ∧
    (ContactIDValidator.idFromHostname h).length = 24 ∧
    (h.length = 16 ∨ h.length = 22) ∧
    ContactIDValidator.idFromHostname h = utf16 "torsion:" ++ h.take 16 ∧
    (∀ u ∈ h.take 16, isBase32 u = true) ∧
    (h.length = 16 →
      ContactIDValidator.hostnameFromID (ContactIDValidator.idFromHostname h)
        = h ++ utf16 ".onion") ∧
    (h.length = 22 →
      ContactIDValidator.hostnameFromID (ContactIDValidator.idFromHostname h)
        = chop h 6 ++ utf16 ".onion") := by
  have hlens : h.length = 16 ∨ h.length = 22 := by
    by_contra hx
    have h16 : h.length ≠ 16 := fun e => hx (Or.inl e)
    have h22 : h.length ≠ 22 := fun e => hx (Or.inr e)
    apply hne
    unfold ContactIDValidator.idFromHostname
    simp [h16, h22]
  have hres : ContactIDValidator.idFromHostname h = utf16 "torsion:" ++ h.take 16 ∧
      regexExact (utf16 "torsion:" ++ h.take 16) = true := by
    rcases hlens with hl | hl
    · have ht : h.take 16 = h := List.take_of_length_le (by omega)
      rw [idFromHostname_short h hl] at hne ⊢
      rw [ht]
      cases hex : regexExact (utf16 "torsion:" ++ h) with
      | true => simp
      | false => rw [hex] at hne; simp at hne
    · rw [idFromHostname_long h hl] at hne ⊢
      by_cases hc : endsWith (toLower h) (utf16 ".onion") = true ∧
          regexExact (utf16 "torsion:" ++ h.take 16) = true
      · rw [if_pos hc]; exact ⟨rfl, hc.2⟩
      · rw [if_neg hc] at hne; exact absurd rfl hne
  obtain ⟨hid, hex⟩ := hres
  have hcan := (regexExact_iff _).mp hex
  have hhost := hostnameFromID_of_exact _ hex
  obtain ⟨b, hb, -, hall⟩ := hcan
  have hbe : h.take 16 = b := List.append_cancel_left hb
  refine ⟨by rw [hid]; exact (regexExact_iff _).mp hex, by rw [hid]; exact regexExact_length _ hex,
    hlens, hid, by rw [hbe]; exact hall, ?_, ?_⟩
  · intro hl
    rw [hid, hhost, List.take_of_length_le (by omega)]
  · intro hl
    rw [hid, hhost]
    unfold chop
    rw [hl]

/-- Witness of C24 (amended): the host name `abcdefghijklmnop.Onion`. -/
theorem idFromHostname_result_canonical_witness :
    ContactIDValidator.hostnameFromID
        (ContactIDValidator.idFromHostname (utf16 "abcdefghijklmnop.Onion"))
      = chop (utf16 "abcdefghijklmnop.Onion") 6 ++ utf16 ".onion" :=
  (idFromHostname_result_canonical (utf16 "abcdefghijklmnop.Onion") (by decide)).2.2.2.2.2.2
    (by decide)

end Torsion
